import Mathlib

/-!
Shallow embedding of the validator re-join script: the CommonJS file
`src/rejoin_validator_set.js` and the ESM variant `src/unnamed/part_000`.
JavaScript strings are modelled as `List Char`; JavaScript values as `JSValue`.
Library functions external to the repository (`JSON.parse`, `ethers.isAddress`,
wallet construction, the RPC gas estimate and the transaction send) are
parameters of the embedded functions.  Suffix `2` marks the `part_000`
variant of a function; unsuffixed names follow `rejoin_validator_set.js`.
-/

/-- JavaScript strings, modelled as lists of characters. -/
abbrev Str := List Char

/-- The double-quote character. -/
def dquoteCh : Char := Char.ofNat 34

/-- The single-quote character. -/
def squoteCh : Char := Char.ofNat 39

/-- The backslash character. -/
def backslashCh : Char := Char.ofNat 92

/-- The opening curly brace character. -/
def lbraceCh : Char := Char.ofNat 123

/-- The closing curly brace character. -/
def rbraceCh : Char := Char.ofNat 125

/-- Whitespace as removed by JavaScript `String.prototype.trim` (the ASCII
cases that occur in this program's inputs). -/
def isWs (c : Char) : Bool := c = ' ' || c = '\t' || c = '\n' || c = '\r'

/-- Leading-whitespace removal. -/
def trimStart (s : Str) : Str := s.dropWhile isWs

/-- Trailing-whitespace removal. -/
def trimEnd (s : Str) : Str := (s.reverse.dropWhile isWs).reverse

/-- JavaScript `s.trim()`. -/
def jsTrim (s : Str) : Str := trimEnd (trimStart s)

/-- JavaScript `s.startsWith(pre)`. -/
def jsStartsWith (pre s : Str) : Bool := decide (s.take pre.length = pre)

/-- JavaScript `s.endsWith(suf)`. -/
def jsEndsWith (suf s : Str) : Bool := jsStartsWith suf.reverse s.reverse

/-- JavaScript `s.toLowerCase()` (ASCII case folding, which is all the
script compares: hex addresses and the `y` confirmation answer). -/
def jsLower (s : Str) : Str := s.map Char.toLower

/-- JavaScript values as they occur in this script: `undefined`, `null`,
booleans, numbers, strings, arrays and plain objects. -/
inductive JSValue where
  | vUndefined
  | vNull
  | vBool (b : Bool)
  | vNum (n : Int)
  | vStr (s : Str)
  | vArr (elems : List JSValue)
  | vObj (fields : List (Str × JSValue))

/-- JavaScript truthiness of a `JSValue`. -/
def truthy : JSValue → Bool
  | .vUndefined => false
  | .vNull => false
  | .vBool b => b
  | .vNum n => decide (n ≠ 0)
  | .vStr s => decide (s ≠ [])
  | .vArr _ => true
  | .vObj _ => true

/-- Whether `typeof v` is the string `object` (true for `null`, arrays and
plain objects). -/
def typeofIsObject : JSValue → Bool
  | .vNull => true
  | .vArr _ => true
  | .vObj _ => true
  | _ => false

/-- JavaScript `Array.isArray`. -/
def isArrayV : JSValue → Bool
  | .vArr _ => true
  | _ => false

/-- JavaScript indexing `v[i]`: array element, single-character string, or a
numeric-keyed property of a plain object; `undefined` otherwise or out of
range. -/
def jsIndex (v : JSValue) (i : Nat) : JSValue :=
  match v with
  | .vArr xs => xs.getD i .vUndefined
  | .vStr s => if i < s.length then .vStr [s.getD i ' '] else .vUndefined
  | .vObj fs =>
      match fs.find? (fun p => decide (p.1 = (Nat.repr i).data)) with
      | some p => p.2
      | none => .vUndefined
  | _ => .vUndefined

/-- The errors this script can raise or observe.  `other` carries errors of
the parameterised library calls (wallet construction, transaction send). -/
inductive JsErr where
  | noInput
  | invalidFormat
  | jsonError
  | typeError
  | notEnoughArgs (n : Nat)
  | invalidAttester
  | merkleNotArray
  | zkNotObject
  | missingBls
  | invalidPrivateKey
  | other (msg : Str)
deriving DecidableEq

/-! ## The tuple splitter of `src/rejoin_validator_set.js` (lines 103-144)

The loop body is factored into a pure scanner-state transition (`scanStep1`,
which covers every branch's effect on `inString`/`stringChar`/`depth`/
`braceDepth`) and the part-accumulation (`step1`).  The branch guards are
pairwise disjoint exactly as in the source, so the factoring preserves the
source's if-else chain: the top-level-comma branch leaves the scanner state
unchanged (`scanStep1` has no case for a bare comma), and every other branch
appends the character to `current`. -/

/-- Scanner state of the `rejoin_validator_set.js` splitter: paren depth,
curly-brace depth, and the in-string flag with its quote character
(the source's `stringChar`, `''` when not in a string, here `none`). -/
structure Scan1 where
  depth : Int
  braceDepth : Int
  inString : Bool
  stringChar : Option Char
deriving DecidableEq

/-- Initial scanner state (line 106-109). -/
def initScan1 : Scan1 := ⟨0, 0, false, none⟩

/-- One character of the `rejoin_validator_set.js` scanner (lines 114-139),
restricted to its effect on the scanner state.  Branch order follows the
source: string entry, string exit, `{`, `}`, `(`, `)`; a top-level comma and
the default branch leave the state unchanged. -/
def scanStep1 (s : Scan1) (c : Char) : Scan1 :=
  if !s.inString && (c = dquoteCh || c = squoteCh) then
    { s with inString := true, stringChar := some c }
  else if s.inString && some c = s.stringChar then
    { s with inString := false, stringChar := none }
  else if !s.inString && c = lbraceCh then { s with braceDepth := s.braceDepth + 1 }
  else if !s.inString && c = rbraceCh then { s with braceDepth := s.braceDepth - 1 }
  else if !s.inString && c = '(' then { s with depth := s.depth + 1 }
  else if !s.inString && c = ')' then { s with depth := s.depth - 1 }
  else s

/-- The guard of the splitting branch (line 134): a comma outside any string
at paren depth 0 and brace depth 0. -/
def isTopComma1 (s : Scan1) (c : Char) : Bool :=
  !s.inString && c = ',' && s.depth = 0 && s.braceDepth = 0

/-- Full loop state of the `rejoin_validator_set.js` splitter. -/
structure SplitSt1 where
  parts : List Str
  current : Str
  scan : Scan1

/-- One iteration of the splitting loop (lines 111-140): a top-level comma
pushes the trimmed current part and resets it; every other character is
appended to the current part. -/
def step1 (st : SplitSt1) (c : Char) : SplitSt1 :=
  if isTopComma1 st.scan c then
    ⟨st.parts ++ [jsTrim st.current], [], scanStep1 st.scan c⟩
  else
    ⟨st.parts, st.current ++ [c], scanStep1 st.scan c⟩

/-- The comma-splitting pass of `rejoin_validator_set.js` (lines 104-144),
including the final push of a non-empty trailing part (lines 142-144). -/
def splitTuple1 (inner : Str) : List Str :=
  let st := inner.foldl step1 ⟨[], [], initScan1⟩
  if jsTrim st.current = [] then st.parts else st.parts ++ [jsTrim st.current]

/-- Per-part coercion of `rejoin_validator_set.js` (lines 147-177): parts in
object or array form are JSON-parsed (kept as strings when that fails); the
numeric branch (lines 171-173) and the default branch (line 176) both return
the part string unchanged, so every other part stays a string. -/
def coercePart1 (jp : Str → Option JSValue) (part0 : Str) : JSValue :=
  let part := jsTrim part0
  if jsStartsWith [lbraceCh] part && jsEndsWith [rbraceCh] part then
    match jp part with
    | some v => v
    | none => .vStr part
  else if jsStartsWith ['['] part && jsEndsWith [']'] part then
    match jp part with
    | some v => v
    | none => .vStr part
  else
    .vStr part

/-- Prefix removal of `rejoin_validator_set.js` (line 88): the anchored
regular expression `^args:\s*` removes the five-character prefix and any
following whitespace when the input starts with it. -/
def stripArgsPrefix1 (s : Str) : Str :=
  if jsStartsWith (['a', 'r', 'g', 's', ':']) s then (s.drop 5).dropWhile isWs else s

/-- The cleaned input of `rejoin_validator_set.js` (line 88): prefix removal
followed by `.trim()`. -/
def cleanInput1 (s : Str) : Str := jsTrim (stripArgsPrefix1 s)

/-- Whether a cleaned input is in JSON-array form (starts `[`, ends `]`). -/
def arrForm (s : Str) : Bool := jsStartsWith ['['] s && jsEndsWith [']'] s

/-- Whether a cleaned input is in parenthesized tuple form. -/
def tupForm (s : Str) : Bool := jsStartsWith ['('] s && jsEndsWith [')'] s

/-- `parseArgsData` of `rejoin_validator_set.js` (lines 83-190).  `jp` models
the library call `JSON.parse` (`none` models a thrown `SyntaxError`, which
the function's catch block re-throws).  The tuple branch removes the outer
parentheses with `slice(1, -1)` (no extra trim), splits, and coerces the
parts. -/
def parseArgsData (jp : Str → Option JSValue) (argsInput : Str) : Except JsErr JSValue :=
  let cleanInput := cleanInput1 argsInput
  if arrForm cleanInput then
    match jp cleanInput with
    | some v => .ok v
    | none => .error .jsonError
  else if tupForm cleanInput then
    let inner := (cleanInput.drop 1).dropLast
    .ok (.vArr ((splitTuple1 inner).map (coercePart1 jp)))
  else
    .error .invalidFormat

/-! ## The tuple splitter of `src/unnamed/part_000` (lines 140-202)

Same factoring.  This variant additionally tracks square-bracket depth and
keeps an escaped closing quote (preceded by a backslash) inside the string;
the check `i > 0 && cleanInput[i-1] === '\\'` is modelled by carrying the
previous character in the scanner state. -/

/-- Scanner state of the `part_000` splitter: paren, curly-brace and
square-bracket depths, the in-string flag with its quote character, and the
previously processed character (for the escaped-quote check). -/
structure ScanSt where
  depth : Int
  braceDepth : Int
  bracketDepth : Int
  inString : Bool
  stringChar : Option Char
  prev : Option Char
deriving DecidableEq

/-- Initial scanner state (lines 141-146, with `prev = none` at `i = 0`). -/
def initScan : ScanSt := ⟨0, 0, 0, false, none, none⟩

/-- One character of the `part_000` scanner (lines 148-197), restricted to
its effect on the scanner state.  In-string handling first (lines 151-162):
a closing quote preceded by a backslash stays inside the string; otherwise
branch order follows the source: quotes, `(`, `)`, `{`, `}`, `[`, `]`.  A
top-level comma and the default branch leave the depths unchanged; `prev`
becomes the processed character in every case. -/
def scanStep (s : ScanSt) (c : Char) : ScanSt :=
  let t :=
    if s.inString then
      if some c = s.stringChar then
        if s.prev = some backslashCh then s
        else { s with inString := false, stringChar := none }
      else s
    else if c = dquoteCh || c = squoteCh then { s with inString := true, stringChar := some c }
    else if c = '(' then { s with depth := s.depth + 1 }
    else if c = ')' then { s with depth := s.depth - 1 }
    else if c = lbraceCh then { s with braceDepth := s.braceDepth + 1 }
    else if c = rbraceCh then { s with braceDepth := s.braceDepth - 1 }
    else if c = '[' then { s with bracketDepth := s.bracketDepth + 1 }
    else if c = ']' then { s with bracketDepth := s.bracketDepth - 1 }
    else s
  { t with prev := some c }

/-- The guard of the splitting branch (line 188): a comma outside any string
with all three depths at 0. -/
def isTopComma (s : ScanSt) (c : Char) : Bool :=
  !s.inString && c = ',' && s.depth = 0 && s.braceDepth = 0 && s.bracketDepth = 0

/-- Full loop state of the `part_000` splitter. -/
structure SplitSt2 where
  parts : List Str
  current : Str
  scan : ScanSt

/-- One iteration of the `part_000` splitting loop (lines 148-197). -/
def step2 (st : SplitSt2) (c : Char) : SplitSt2 :=
  if isTopComma st.scan c then
    ⟨st.parts ++ [jsTrim st.current], [], scanStep st.scan c⟩
  else
    ⟨st.parts, st.current ++ [c], scanStep st.scan c⟩

/-- The comma-splitting pass of `part_000` (lines 140-202), including the
final push of a non-empty trailing part (lines 200-202). -/
def splitTuple2 (inner : Str) : List Str :=
  let st := inner.foldl step2 ⟨[], [], initScan⟩
  if jsTrim st.current = [] then st.parts else st.parts ++ [jsTrim st.current]

/-- Per-part coercion of `part_000` (lines 206-224): an empty part becomes
`null`; parts in object or array form are JSON-parsed, falling back to the
raw string; everything else stays a string. -/
def coercePart2 (jp : Str → Option JSValue) (part0 : Str) : JSValue :=
  let part := jsTrim part0
  if part = [] then .vNull
  else if (jsStartsWith [lbraceCh] part && jsEndsWith [rbraceCh] part)
      || (jsStartsWith ['['] part && jsEndsWith [']'] part) then
    match jp part with
    | some v => v
    | none => .vStr part
  else
    .vStr part

/-- Prefix removal of `part_000` (lines 113-117).  Note `substring(4)` and
`substring(5)` drop one character fewer than the matched prefixes
`args:` (5 characters) and `args :` (6 characters), leaving the colon. -/
def stripArgsPrefix2 (s : Str) : Str :=
  if jsStartsWith (['a', 'r', 'g', 's', ':']) s then jsTrim (s.drop 4)
  else if jsStartsWith (['a', 'r', 'g', 's', ' ', ':']) s then jsTrim (s.drop 5)
  else s

/-- The cleaned input of `part_000` (lines 110-117): `.trim()` first, then
prefix removal. -/
def cleanInput2 (s : Str) : Str := stripArgsPrefix2 (jsTrim s)

/-- `parseArgsData` of `part_000` (lines 103-232).  Empty input throws
(lines 106-108).  A failed `JSON.parse` of an array-form input is caught and
control falls through to the tuple attempt (lines 122-131); the tuple
branch removes the outer parentheses and trims (line 138). -/
def parseArgsData2 (jp : Str → Option JSValue) (argsInput : Str) : Except JsErr JSValue :=
  if argsInput = [] then .error .noInput
  else
    let cleanInput := cleanInput2 argsInput
    match (if arrForm cleanInput then jp cleanInput else none) with
    | some v => .ok v
    | none =>
      if tupForm cleanInput then
        let inner := jsTrim ((cleanInput.drop 1).dropLast)
        .ok (.vArr ((splitTuple2 inner).map (coercePart2 jp)))
      else
        .error .invalidFormat

/-! ## Data extraction -/

/-- The record returned by both versions of `extractDataFromArgs`. -/
structure ExtractedData where
  attester : JSValue
  merkleProof : JSValue
  zkPassportData : JSValue
  publicKeyG1 : JSValue
  publicKeyG2 : JSValue
  signature : JSValue

/-- The string-to-object step shared by both versions (lines 212-219 of
`rejoin_validator_set.js`, lines 265-273 of `part_000`): a string third
argument is JSON-parsed, and kept as the raw string when parsing fails. -/
def zkCoerce (jp : Str → Option JSValue) (v : JSValue) : JSValue :=
  match v with
  | .vStr s =>
      match jp s with
      | some w => w
      | none => .vStr s
  | w => w

/-- `extractDataFromArgs` of `rejoin_validator_set.js` (lines 193-249).
There is no length check, no address check and no check on positions 3-5 in
this version.  When the third element is `undefined`, line 209 evaluates
`JSON.stringify(zkPassportData).substring(0, 100)`; `JSON.stringify` of
`undefined` is `undefined`, so `.substring` throws a `TypeError`, which the
catch block re-throws.  The only explicit throw is the object check on the
third element (lines 222-225). -/
def extractDataFromArgs (jp : Str → Option JSValue) (args : JSValue) :
    Except JsErr ExtractedData :=
  let attester := jsIndex args 0
  let merkleProof := if truthy (jsIndex args 1) then jsIndex args 1 else .vArr []
  match jsIndex args 2 with
  | .vUndefined => .error .typeError
  | zk0 =>
    let zkPassportData := zkCoerce jp zk0
    if !truthy zkPassportData || !typeofIsObject zkPassportData then
      .error .zkNotObject
    else
      .ok ⟨attester, merkleProof, zkPassportData,
           jsIndex args 3, jsIndex args 4, jsIndex args 5⟩

/-- `extractDataFromArgs` of `part_000` (lines 241-302).  `isAddress` models
the library call `ethers.isAddress`.  This version checks: the argument is
an array of length at least 6 (lines 244-246); the first element is a string
accepted by `isAddress` (lines 250-253); the merkle proof (second element,
`[]` when falsy) is an array (lines 257-260); the third element, after
the optional string-to-object step, is a truthy object (lines 264-276); and
the elements at positions 3, 4, 5 are all truthy (lines 280-286). -/
def extractDataFromArgs2 (jp : Str → Option JSValue) (isAddress : Str → Bool)
    (args : JSValue) : Except JsErr ExtractedData :=
  match args with
  | .vArr xs =>
    if xs.length < 6 then .error (.notEnoughArgs xs.length)
    else
      match jsIndex args 0 with
      | .vStr a =>
        if !isAddress a then .error .invalidAttester
        else
          let merkleProof := if truthy (jsIndex args 1) then jsIndex args 1 else .vArr []
          if !isArrayV merkleProof then .error .merkleNotArray
          else
            let zkPassportData := zkCoerce jp (jsIndex args 2)
            if !truthy zkPassportData || !typeofIsObject zkPassportData then
              .error .zkNotObject
            else
              let publicKeyG1 := jsIndex args 3
              let publicKeyG2 := jsIndex args 4
              let signature := jsIndex args 5
              if !truthy publicKeyG1 || !truthy publicKeyG2 || !truthy signature then
                .error .missingBls
              else
                .ok ⟨.vStr a, merkleProof, zkPassportData,
                     publicKeyG1, publicKeyG2, signature⟩
      | _ => .error .invalidAttester
  | _ => .error (.notEnoughArgs 0)

/-! ## The contract call -/

/-- The fallback gas value used when the RPC estimate fails (line 291 of
`rejoin_validator_set.js`, line 347 of `part_000`). -/
def FALLBACK_GAS : Nat := 2000000

/-- The transaction request built by `callAddValidator`: the positional
argument list passed to `contract.addValidator`, in source order, and the
gas limit from the overrides object. -/
structure TxCall where
  params : List JSValue
  gasLimit : Nat

/-- `callAddValidator` up to the transaction send (lines 252-306 of
`rejoin_validator_set.js`, lines 310-366 of `part_000`; both versions build
the same request).  `estimateGas` models the RPC gas-estimate call, `none`
modelling a thrown estimation error, replaced by the fallback of 2,000,000
inside the catch block.  The gas limit adds a 20% buffer with integer
arithmetic: `gasEstimate.mul(120).div(100)` in the first version,
`gasEstimate * 120n / 100n` in the second.  The six call parameters are the
extracted fields, in this order. -/
def callAddValidator (estimateGas : Option Nat) (d : ExtractedData) : TxCall :=
  let gasEstimate :=
    match estimateGas with
    | some g => g
    | none => FALLBACK_GAS
  ⟨[d.attester, d.merkleProof, d.zkPassportData,
    d.publicKeyG1, d.publicKeyG2, d.signature],
   gasEstimate * 120 / 100⟩

/-! ## The main pipeline

`main` of both files is a linear pipeline inside one try/catch.  The
interactive and network boundary is a record of parameters: the wallet
constructor, `JSON.parse`, `ethers.isAddress`, the gas-estimate result and
the send result.  `getUserInput` trims every answer (line 77 of
`rejoin_validator_set.js`, line 91 of `part_000`), so the raw prompt answers
are trimmed before use.  The run is modelled as the list of externally
visible events, in order, plus the final outcome. -/

/-- The wallet object, reduced to the field the script reads. -/
structure Wallet where
  address : Str

/-- The transaction receipt, reduced to the fields the script reads. -/
structure Receipt where
  txHash : Str
  blockNumber : Nat

/-- The library and network boundary of a run. -/
structure Env where
  walletOf : Str → Except JsErr Wallet
  jsonParse : Str → Option JSValue
  isAddress : Str → Bool
  estimateGas : Option Nat
  sendResult : Except JsErr Receipt

/-- The three raw prompt answers of a run. -/
structure Inputs where
  rawPrivateKey : Str
  rawArgsInput : Str
  rawConfirm : Str

/-- Externally visible events of a run, in order of occurrence. -/
inductive Event where
  | walletCreated (addr : Str)
  | dataParsed
  | dataExtracted
  | mismatchWarning
  | confirmPrompt
  | submitTx (t : TxCall)
  | txConfirmed (r : Receipt)
  | printError (e : JsErr)
  | printHints

/-- How a run of `main` ends. -/
inductive Outcome where
  | noKey
  | noArgs
  | cancelled
  | finished (r : Receipt)
  | caught (e : JsErr)

/-- A run of `main`: its event trace and its outcome. -/
structure RunResult where
  trace : List Event
  outcome : Outcome

/-- The catch block of `main` in both files: the error message is printed,
followed by the static troubleshooting hints (lines 403-413 of
`rejoin_validator_set.js`, lines 465-476 of `part_000`). -/
def reportTrail (pre : List Event) (e : JsErr) : RunResult :=
  ⟨pre ++ [.printError e, .printHints], .caught e⟩

/-- The tail of both `main` functions once a contract call is decided: build
the request, send it (a send error is caught by `main`'s catch block), and
report the confirmed receipt. -/
def finishCall (env : Env) (pre : List Event) (d : ExtractedData) : RunResult :=
  let t := callAddValidator env.estimateGas d
  match env.sendResult with
  | .error e => reportTrail (pre ++ [.submitTx t]) e
  | .ok r => ⟨pre ++ [.submitTx t, .txConfirmed r], .finished r⟩

/-- `main` of `rejoin_validator_set.js` (lines 324-414).  An empty private
key or empty args input returns early (lines 338-341, 363-366).  Wallet
creation, parsing and extraction errors are caught.  Line 380 calls
`.toLowerCase()` on the extracted attester, which throws a `TypeError`
when the attester is not a string; on a case-insensitive mismatch the user
is prompted, and any trimmed answer other than `y`/`Y` cancels the run
(lines 387-391). -/
def mainRun1 (env : Env) (inp : Inputs) : RunResult :=
  let privateKey := jsTrim inp.rawPrivateKey
  if privateKey = [] then ⟨[], .noKey⟩
  else
    match env.walletOf privateKey with
    | .error e => reportTrail [] e
    | .ok wallet =>
      let argsInput := jsTrim inp.rawArgsInput
      if argsInput = [] then ⟨[.walletCreated wallet.address], .noArgs⟩
      else
        match parseArgsData env.jsonParse argsInput with
        | .error e => reportTrail [.walletCreated wallet.address] e
        | .ok args =>
          match extractDataFromArgs env.jsonParse args with
          | .error e => reportTrail [.walletCreated wallet.address, .dataParsed] e
          | .ok d =>
            let base := [.walletCreated wallet.address, .dataParsed, .dataExtracted]
            match d.attester with
            | .vStr a =>
              if jsLower wallet.address = jsLower a then
                finishCall env base d
              else if jsLower (jsTrim inp.rawConfirm) = ['y'] then
                finishCall env (base ++ [.mismatchWarning, .confirmPrompt]) d
              else
                ⟨base ++ [.mismatchWarning, .confirmPrompt], .cancelled⟩
            | _ => reportTrail base .typeError

/-- `main` of `part_000` (lines 397-477).  An empty private key returns
early (lines 416-419); there is no separate empty-args guard (empty input
is rejected inside `parseArgsData`).  A wallet-construction error is
re-thrown as an invalid-private-key error (lines 422-428) and caught by the
outer catch.  The extracted attester is always a string here, so the
`.toLowerCase()` call on it cannot throw; the unreachable non-string case
is modelled as the `TypeError` it would raise. -/
def mainRun2 (env : Env) (inp : Inputs) : RunResult :=
  let privateKey := jsTrim inp.rawPrivateKey
  if privateKey = [] then ⟨[], .noKey⟩
  else
    match env.walletOf privateKey with
    | .error _ => reportTrail [] .invalidPrivateKey
    | .ok wallet =>
      let argsInput := jsTrim inp.rawArgsInput
      match parseArgsData2 env.jsonParse argsInput with
      | .error e => reportTrail [.walletCreated wallet.address] e
      | .ok args =>
        match extractDataFromArgs2 env.jsonParse env.isAddress args with
        | .error e => reportTrail [.walletCreated wallet.address, .dataParsed] e
        | .ok d =>
          let base := [.walletCreated wallet.address, .dataParsed, .dataExtracted]
          match d.attester with
          | .vStr a =>
            if jsLower wallet.address = jsLower a then
              finishCall env base d
            else if jsLower (jsTrim inp.rawConfirm) = ['y'] then
              finishCall env (base ++ [.mismatchWarning, .confirmPrompt]) d
            else
              ⟨base ++ [.mismatchWarning, .confirmPrompt], .cancelled⟩
          | _ => reportTrail base .typeError

/-- Process exit code of `rejoin_validator_set.js` (lines 417-419): the
entry point is `main().catch(console.error)`; `main` is total in this model
(every step error is caught inside it), the handler only logs and never
calls `process.exit`, so the process exit code is 0. -/
def runScript1 (env : Env) (inp : Inputs) : Nat :=
  let _ := mainRun1 env inp
  0

/-- Process exit code of `part_000` (lines 482-488): the entry point calls
`process.exit(1)` only in the `.catch` handler of `main()`, i.e. on an
unhandled top-level rejection; `main` is total in this model, so the
handler never runs and the exit code is 0. -/
def runScript2 (env : Env) (inp : Inputs) : Nat :=
  let _ := mainRun2 env inp
  0

/-- Whether an event is a transaction submission. -/
def isSubmit : Event → Bool
  | .submitTx _ => true
  | _ => false

/-- Number of transactions submitted in a trace. -/
def countSubmits (tr : List Event) : Nat := tr.countP isSubmit

/-- Parsing followed by extraction on the (trimmed) pasted args input, as
composed by `main` of `rejoin_validator_set.js` (lines 369-370). -/
def pipeline1 (env : Env) (inp : Inputs) : Except JsErr ExtractedData :=
  (parseArgsData env.jsonParse (jsTrim inp.rawArgsInput)).bind
    (extractDataFromArgs env.jsonParse)

/-- Parsing followed by extraction on the (trimmed) pasted args input, as
composed by `main` of `part_000` (lines 436-437). -/
def pipeline2 (env : Env) (inp : Inputs) : Except JsErr ExtractedData :=
  (parseArgsData2 env.jsonParse (jsTrim inp.rawArgsInput)).bind
    (extractDataFromArgs2 env.jsonParse env.isAddress)

/-! ## Concrete boundary instances, used to evaluate the embedded functions
on closed inputs -/

/-- A `JSON.parse` instance that always fails. -/
def jpNone : Str → Option JSValue := fun _ => none

/-- A six-element argument array of the shape the script expects. -/
def sixOkArgs : List JSValue :=
  [.vStr (['0', 'x', 'a', 'b']), .vArr [],
   .vObj [((['k']), .vNum 1)], .vNum 1, .vNum 1, .vNum 1]

/-- A `JSON.parse` instance defined on the handful of closed JSON texts the
witnesses use. -/
def jsonParseTest (s : Str) : Option JSValue :=
  if s = (['[', ']']) then some (.vArr [])
  else if s = (['[', '6', ']']) then some (.vArr sixOkArgs)
  else none

/-- An `ethers.isAddress` instance for closed runs: accepts `0x`-prefixed
strings. -/
def isAddressTest : Str → Bool := fun s => jsStartsWith (['0', 'x']) s

/-- A boundary where every call succeeds and the wallet matches the
attester of `sixOkArgs` up to case. -/
def envOk : Env :=
  ⟨fun _ => .ok ⟨['0', 'x', 'A', 'B']⟩, jsonParseTest, isAddressTest,
   some 100, .ok ⟨['0', 'x', 'h'], 5⟩⟩

/-- The same boundary with a wallet that does not match the attester. -/
def envMismatch : Env :=
  ⟨fun _ => .ok ⟨['0', 'x', 'C', 'D']⟩, jsonParseTest, isAddressTest,
   some 100, .ok ⟨['0', 'x', 'h'], 5⟩⟩

/-- The same boundary with a failing wallet constructor. -/
def envWalletErr : Env :=
  ⟨fun _ => .error (.other (['b', 'a', 'd'])), jsonParseTest, isAddressTest,
   some 100, .ok ⟨['0', 'x', 'h'], 5⟩⟩

/-- The matching-wallet boundary with a failing transaction send. -/
def envSendErr : Env :=
  ⟨fun _ => .ok ⟨['0', 'x', 'A', 'B']⟩, jsonParseTest, isAddressTest,
   some 100, .error (.other (['s', 'e']))⟩

/-- Prompt answers for a run on the `[6]` JSON input, declining the
confirmation prompt. -/
def inpOk : Inputs := ⟨['k'], (['[', '6', ']']), ['n']⟩

/-- The record extracted from `sixOkArgs` (and from its falsy-merkle-proof
variant, where the default empty array is substituted). -/
def dOk : ExtractedData :=
  ⟨.vStr (['0', 'x', 'a', 'b']), .vArr [], .vObj [((['k']), .vNum 1)],
   .vNum 1, .vNum 1, .vNum 1⟩

/-- `sixOkArgs` with a falsy (null) second element. -/
def xsFalsyMerkle : List JSValue :=
  [.vStr (['0', 'x', 'a', 'b']), .vNull, .vObj [((['k']), .vNum 1)],
   .vNum 1, .vNum 1, .vNum 1]

/-! ## Scanner runs and well-nested elements

To state the element-count property of the tuple splitters, the scanner
state evolution is isolated (`scanRun`, `scanRun1`) together with the
predicate that a stretch of text contains a top-level comma
(`hasTopComma`, `hasTopComma1`).  An element of a tuple rendering is
well-nested (`ElemOk`, `ElemOk1`) when it is non-empty, carries no
whitespace at its ends, returns the scanner to a neutral state, and
contains no top-level comma. -/

/-- Iterated `part_000` scanner. -/
def scanRun : ScanSt → Str → ScanSt
  | s, [] => s
  | s, c :: rest => scanRun (scanStep s c) rest

/-- Whether the `part_000` scanner meets a top-level comma while reading a
stretch of text from a given state. -/
def hasTopComma : ScanSt → Str → Bool
  | _, [] => false
  | s, c :: rest => isTopComma s c || hasTopComma (scanStep s c) rest

/-- A neutral `part_000` scanner state: all depths zero and not inside a
string (the previous character is unconstrained). -/
def Neutral (s : ScanSt) : Prop :=
  s.depth = 0 ∧ s.braceDepth = 0 ∧ s.bracketDepth = 0 ∧
    s.inString = false ∧ s.stringChar = none

instance (s : ScanSt) : Decidable (Neutral s) := by
  unfold Neutral; exact inferInstance

/-- A well-nested element for the `part_000` splitter. -/
def ElemOk (e : Str) : Prop :=
  e ≠ [] ∧ jsTrim e = e ∧ Neutral (scanRun initScan e) ∧
    hasTopComma initScan e = false

instance (e : Str) : Decidable (ElemOk e) := by
  unfold ElemOk; exact inferInstance

/-- Iterated `rejoin_validator_set.js` scanner. -/
def scanRun1 : Scan1 → Str → Scan1
  | s, [] => s
  | s, c :: rest => scanRun1 (scanStep1 s c) rest

/-- Whether the `rejoin_validator_set.js` scanner meets a top-level comma
while reading a stretch of text from a given state. -/
def hasTopComma1 : Scan1 → Str → Bool
  | _, [] => false
  | s, c :: rest => isTopComma1 s c || hasTopComma1 (scanStep1 s c) rest

/-- A well-nested element for the `rejoin_validator_set.js` splitter (this
scanner does not track square brackets). -/
def ElemOk1 (e : Str) : Prop :=
  e ≠ [] ∧ jsTrim e = e ∧ scanRun1 initScan1 e = initScan1 ∧
    hasTopComma1 initScan1 e = false

instance (e : Str) : Decidable (ElemOk1 e) := by
  unfold ElemOk1; exact inferInstance

/-- The inner text of a tuple rendering: the elements joined by top-level
commas. -/
def joinParts : List Str → Str
  | [] => []
  | [e] => e
  | e :: f :: rest => e ++ ',' :: joinParts (f :: rest)

/-- A tuple rendering: the joined elements wrapped in parentheses. -/
def tupleRender (elems : List Str) : Str := '(' :: (joinParts elems ++ [')'])

/-- The last element of a list of strings (`[]` when there is none). -/
def myLast (l : List Str) : Str := l.getLastD []

/-- Head character of a string (a non-whitespace placeholder when empty). -/
def headCh (l : Str) : Char := l.headD 'x'

/-- Last character of a string (a non-whitespace placeholder when empty). -/
def lastCh (l : Str) : Char := l.reverse.headD 'x'

/-- The number of elements of a parsed argument array (0 otherwise). -/
def vLen : JSValue → Nat
  | .vArr xs => xs.length
  | _ => 0

/-! ## General lemmas about the embedded string operations and scanners -/

theorem scanStep_prev (d b k : Int) (sc p q : Option Char) (c : Char) :
    scanStep ⟨d, b, k, false, sc, p⟩ c = scanStep ⟨d, b, k, false, sc, q⟩ c := by
  simp [scanStep]
  split_ifs <;> simp

theorem isTopComma_prev (s : ScanSt) (p : Option Char) (c : Char) :
    isTopComma { s with prev := p } c = isTopComma s c := rfl


theorem headD_append (l m : Str) (d : Char) (h : l ≠ []) :
    (l ++ m).headD d = l.headD d := by
  cases l with
  | nil => exact absurd rfl h
  | cons c t => rfl

theorem headCh_append (l m : Str) (h : l ≠ []) : headCh (l ++ m) = headCh l :=
  headD_append l m 'x' h

theorem lastCh_append (l m : Str) (h : m ≠ []) : lastCh (l ++ m) = lastCh m := by
  unfold lastCh
  rw [List.reverse_append]
  exact headD_append m.reverse l.reverse 'x' (by simpa using h)

theorem lastCh_concat (l : Str) (c : Char) : lastCh (l ++ [c]) = c := by
  unfold lastCh
  rw [List.reverse_append]
  rfl

theorem lastCh_cons (c : Char) (m : Str) (h : m ≠ []) : lastCh (c :: m) = lastCh m := by
  unfold lastCh
  rw [List.reverse_cons]
  exact headD_append m.reverse [c] 'x' (by simpa using h)

theorem trimStart_cons_keep (c : Char) (t : Str) (h : isWs c = false) :
    trimStart (c :: t) = c :: t := by
  simp [trimStart, List.dropWhile_cons, h]

theorem trimEnd_concat_keep (t : Str) (c : Char) (h : isWs c = false) :
    trimEnd (t ++ [c]) = t ++ [c] := by
  simp [trimEnd, List.reverse_append, List.dropWhile_cons, h]

theorem jsTrim_keep (l : Str) (h1 : isWs (headCh l) = false)
    (h2 : isWs (lastCh l) = false) : jsTrim l = l := by
  cases l with
  | nil => rfl
  | cons c t =>
    have h1c : isWs c = false := h1
    rcases List.eq_nil_or_concat (c :: t) with hN | ⟨ys, z, hz⟩
    · exact absurd hN (by simp)
    · rw [List.concat_eq_append] at hz
      have h2z : isWs z = false := by
        have h2w := h2
        rw [hz, lastCh_concat] at h2w
        exact h2w
      show trimEnd (trimStart (c :: t)) = c :: t
      rw [trimStart_cons_keep c t h1c, hz, trimEnd_concat_keep ys z h2z]

theorem length_dropWhile_le (p : Char → Bool) (l : Str) :
    (l.dropWhile p).length ≤ l.length := by
  induction l with
  | nil => simp
  | cons c t ih =>
    by_cases h : p c
    · rw [List.dropWhile_cons]
      simp only [h, if_true]
      exact le_trans ih (by simp)
    · rw [List.dropWhile_cons]
      simp [h]

theorem trimStart_length_le (l : Str) : (trimStart l).length ≤ l.length :=
  length_dropWhile_le _ _

theorem trimEnd_length_le (l : Str) : (trimEnd l).length ≤ l.length := by
  unfold trimEnd
  simpa using length_dropWhile_le isWs l.reverse

theorem jsTrim_ne_of_ws_head (l : Str) (hne : l ≠ []) (h : isWs (headCh l) = true) :
    jsTrim l ≠ l := by
  cases l with
  | nil => exact absurd rfl hne
  | cons c t =>
    have hc : isWs c = true := h
    intro heq
    have hlen : (jsTrim (c :: t)).length ≤ t.length := by
      show (trimEnd (trimStart (c :: t))).length ≤ t.length
      have hts : trimStart (c :: t) = trimStart t := by
        simp [trimStart, List.dropWhile_cons, hc]
      rw [hts]
      exact le_trans (trimEnd_length_le _) (trimStart_length_le _)
    rw [heq] at hlen
    simp only [List.length_cons] at hlen
    omega

theorem jsTrim_ne_of_ws_last (l : Str) (hne : l ≠ [])
    (hhead : isWs (headCh l) = false) (h : isWs (lastCh l) = true) : jsTrim l ≠ l := by
  rcases List.eq_nil_or_concat' l with rfl | ⟨ys, z, rfl⟩
  · exact absurd rfl hne
  · have hz : isWs z = true := by rwa [lastCh_concat] at h
    intro heq
    have hts : trimStart (ys ++ [z]) = ys ++ [z] := by
      cases ys with
      | nil =>
        have : isWs z = false := hhead
        rw [this] at hz
        cases hz
      | cons a u =>
        have ha : isWs a = false := by
          have := hhead
          rwa [show headCh ((a :: u) ++ [z]) = a from rfl] at this
        exact trimStart_cons_keep a (u ++ [z]) ha
    have hlen : (jsTrim (ys ++ [z])).length ≤ ys.length := by
      show (trimEnd (trimStart (ys ++ [z]))).length ≤ ys.length
      rw [hts]
      unfold trimEnd
      rw [List.reverse_append]
      simp only [List.reverse_cons, List.reverse_nil, List.nil_append, List.singleton_append,
        List.dropWhile_cons, hz]
      simp only [if_true]
      simpa using length_dropWhile_le isWs ys.reverse
    rw [heq] at hlen
    simp at hlen

theorem elemEnds (e : Str) (hne : e ≠ []) (ht : jsTrim e = e) :
    isWs (headCh e) = false ∧ isWs (lastCh e) = false := by
  have h1 : isWs (headCh e) = false := by
    by_contra hx
    exact jsTrim_ne_of_ws_head e hne (by simpa using hx) ht
  refine ⟨h1, ?_⟩
  by_contra hx
  exact jsTrim_ne_of_ws_last e hne h1 (by simpa using hx) ht

theorem jsStartsWith_cons_ne (c d : Char) (p s : Str) (h : c ≠ d) :
    jsStartsWith (c :: p) (d :: s) = false := by
  simp only [jsStartsWith, List.length_cons, List.take_succ_cons, decide_eq_false_iff_not]
  intro heq
  injection heq with hd _
  exact h hd.symm

theorem jsStartsWith_single (c : Char) (s : Str) : jsStartsWith [c] (c :: s) = true := by
  simp [jsStartsWith, List.take_succ_cons]


theorem scanRun_prev (e : Str) (hne : e ≠ []) (d b k : Int) (sc p q : Option Char) :
    scanRun ⟨d, b, k, false, sc, p⟩ e = scanRun ⟨d, b, k, false, sc, q⟩ e := by
  cases e with
  | nil => exact absurd rfl hne
  | cons c rest =>
    show scanRun (scanStep ⟨d, b, k, false, sc, p⟩ c) rest =
      scanRun (scanStep ⟨d, b, k, false, sc, q⟩ c) rest
    rw [scanStep_prev]

theorem hasTopComma_prev (e : Str) (hne : e ≠ []) (d b k : Int) (sc p q : Option Char) :
    hasTopComma ⟨d, b, k, false, sc, p⟩ e = hasTopComma ⟨d, b, k, false, sc, q⟩ e := by
  cases e with
  | nil => exact absurd rfl hne
  | cons c rest =>
    show (isTopComma ⟨d, b, k, false, sc, p⟩ c || hasTopComma (scanStep ⟨d, b, k, false, sc, p⟩ c) rest) =
      (isTopComma ⟨d, b, k, false, sc, q⟩ c || hasTopComma (scanStep ⟨d, b, k, false, sc, q⟩ c) rest)
    rw [scanStep_prev d b k sc p q c]
    rfl

theorem foldl_step2_noComma (e : Str) : ∀ (P : List Str) (cur : Str) (s : ScanSt),
    hasTopComma s e = false →
    List.foldl step2 ⟨P, cur, s⟩ e = ⟨P, cur ++ e, scanRun s e⟩ := by
  induction e with
  | nil =>
    intro P cur s _
    simp [scanRun]
  | cons c rest ih =>
    intro P cur s h
    rw [show hasTopComma s (c :: rest) =
      (isTopComma s c || hasTopComma (scanStep s c) rest) from rfl] at h
    rw [Bool.or_eq_false_iff] at h
    rw [List.foldl_cons]
    have hstep : step2 ⟨P, cur, s⟩ c = ⟨P, cur ++ [c], scanStep s c⟩ := by
      simp [step2, h.1]
    rw [hstep, ih _ _ _ h.2]
    simp [scanRun]

theorem neutral_run (e : Str) (s : ScanSt) (hs : Neutral s) (hok : ElemOk e) :
    scanRun s e = scanRun initScan e ∧ hasTopComma s e = false := by
  obtain ⟨hne, _, _, hcomma⟩ := hok
  obtain ⟨d, b, k, i, sc, pr⟩ := s
  obtain ⟨h1, h2, h3, h4, h5⟩ := hs
  simp only at h1 h2 h3 h4 h5
  subst h1; subst h2; subst h3; subst h4; subst h5
  constructor
  · exact scanRun_prev e hne 0 0 0 none pr none
  · rw [hasTopComma_prev e hne 0 0 0 none pr none]
    exact hcomma

theorem run_elem (e : Str) (hok : ElemOk e) (P : List Str) (cur : Str) (s : ScanSt)
    (hs : Neutral s) :
    List.foldl step2 ⟨P, cur, s⟩ e = ⟨P, cur ++ e, scanRun s e⟩ ∧ Neutral (scanRun s e) := by
  obtain ⟨hr, hc⟩ := neutral_run e s hs hok
  refine ⟨foldl_step2_noComma e P cur s hc, ?_⟩
  rw [hr]
  exact hok.2.2.1

theorem isTopComma_neutral (s : ScanSt) (hs : Neutral s) : isTopComma s ',' = true := by
  obtain ⟨h1, h2, h3, h4, _⟩ := hs
  simp [isTopComma, h1, h2, h3, h4]

theorem scanStep_other (s : ScanSt) (c : Char) (h : s.inString = false)
    (h1 : c ≠ dquoteCh) (h2 : c ≠ squoteCh) (h3 : c ≠ '(') (h4 : c ≠ ')')
    (h5 : c ≠ lbraceCh) (h6 : c ≠ rbraceCh) (h7 : c ≠ '[') (h8 : c ≠ ']') :
    scanStep s c = { s with prev := some c } := by
  simp [scanStep, h, h1, h2, h3, h4, h5, h6, h7, h8]

theorem scanStep_comma_neutral (s : ScanSt) (hs : Neutral s) :
    Neutral (scanStep s ',') := by
  obtain ⟨h1, h2, h3, h4, h5⟩ := hs
  rw [scanStep_other s ',' h4 (by decide) (by decide) (by decide) (by decide)
    (by decide) (by decide) (by decide) (by decide)]
  exact ⟨h1, h2, h3, h4, h5⟩

theorem myLast_mem : ∀ (l : List Str), l ≠ [] → myLast l ∈ l := by
  intro l
  induction l with
  | nil => intro h; exact absurd rfl h
  | cons a t ih =>
    intro _
    cases t with
    | nil => simp [myLast]
    | cons b u =>
      have h2 : myLast (a :: b :: u) = myLast (b :: u) := by
        simp [myLast, List.getLastD_cons]
      rw [h2]
      exact List.mem_cons_of_mem a (ih (by simp))

theorem dropLast_concat_myLast : ∀ (l : List Str), l ≠ [] → l.dropLast ++ [myLast l] = l := by
  intro l
  induction l with
  | nil => intro h; exact absurd rfl h
  | cons a t ih =>
    intro _
    cases t with
    | nil => simp [myLast]
    | cons b u =>
      have h2 : myLast (a :: b :: u) = myLast (b :: u) := by
        simp [myLast, List.getLastD_cons]
      have h3 : (a :: b :: u).dropLast = a :: (b :: u).dropLast := rfl
      rw [h3, h2, List.cons_append, ih (by simp)]

theorem join_run : ∀ (elems : List Str) (e : Str), ElemOk e → (∀ x ∈ elems, ElemOk x) →
    ∀ (P : List Str) (s : ScanSt), Neutral s →
    (List.foldl step2 ⟨P, [], s⟩ (joinParts (e :: elems))).parts = P ++ (e :: elems).dropLast ∧
    (List.foldl step2 ⟨P, [], s⟩ (joinParts (e :: elems))).current = myLast (e :: elems) ∧
    Neutral (List.foldl step2 ⟨P, [], s⟩ (joinParts (e :: elems))).scan := by
  intro elems
  induction elems with
  | nil =>
    intro e hok _ P s hs
    obtain ⟨hfold, hneu⟩ := run_elem e hok P [] s hs
    rw [show joinParts [e] = e from rfl, hfold]
    exact ⟨by simp, by simp [myLast], hneu⟩
  | cons f rest ih =>
    intro e hok hall P s hs
    rw [show joinParts (e :: f :: rest) = e ++ (',' :: joinParts (f :: rest)) from rfl,
      List.foldl_append]
    obtain ⟨hfold, hneu⟩ := run_elem e hok P [] s hs
    rw [hfold, List.foldl_cons]
    have hstep : step2 ⟨P, [] ++ e, scanRun s e⟩ ',' =
        ⟨P ++ [jsTrim ([] ++ e)], [], scanStep (scanRun s e) ','⟩ := by
      simp [step2, isTopComma_neutral _ hneu]
    rw [hstep]
    rw [show jsTrim ([] ++ e) = e from by simpa using hok.2.1]
    have hneu2 : Neutral (scanStep (scanRun s e) ',') := scanStep_comma_neutral _ hneu
    obtain ⟨ha, hb, hc⟩ := ih f (hall f (by simp)) (fun x hx => hall x (by simp [hx]))
      (P ++ [e]) _ hneu2
    refine ⟨?_, ?_, hc⟩
    · rw [ha]
      rw [show (e :: f :: rest).dropLast = e :: (f :: rest).dropLast from rfl]
      simp
    · rw [hb]
      simp [myLast, List.getLastD_cons]

theorem splitTuple2_join (elems : List Str) (hne : elems ≠ [])
    (hall : ∀ x ∈ elems, ElemOk x) :
    splitTuple2 (joinParts elems) = elems := by
  cases elems with
  | nil => exact absurd rfl hne
  | cons e rest =>
    obtain ⟨ha, hb, _⟩ := join_run rest e (hall e (by simp))
      (fun x hx => hall x (by simp [hx])) [] initScan ⟨rfl, rfl, rfl, rfl, rfl⟩
    have hlast : ElemOk (myLast (e :: rest)) := hall _ (myLast_mem _ (by simp))
    show (let st := (joinParts (e :: rest)).foldl step2 ⟨[], [], initScan⟩
      if jsTrim st.current = [] then st.parts else st.parts ++ [jsTrim st.current]) = e :: rest
    simp only
    rw [show (joinParts (e :: rest)).foldl step2 ⟨[], [], initScan⟩ =
      List.foldl step2 ⟨[], [], initScan⟩ (joinParts (e :: rest)) from rfl]
    rw [hb, ha, hlast.2.1, if_neg hlast.1]
    simpa using dropLast_concat_myLast (e :: rest) (by simp)


theorem joinParts_ne : ∀ (rest : List Str) (e : Str), e ≠ [] → joinParts (e :: rest) ≠ [] := by
  intro rest e he
  cases rest with
  | nil => exact he
  | cons f u =>
    rw [show joinParts (e :: f :: u) = e ++ (',' :: joinParts (f :: u)) from rfl]
    simp

theorem headCh_joinParts (rest : List Str) (e : Str) (he : e ≠ []) :
    headCh (joinParts (e :: rest)) = headCh e := by
  cases rest with
  | nil => rfl
  | cons f u => exact headCh_append e _ he

theorem lastCh_joinParts : ∀ (rest : List Str) (e : Str), e ≠ [] → (∀ x ∈ rest, x ≠ []) →
    lastCh (joinParts (e :: rest)) = lastCh (myLast (e :: rest)) := by
  intro rest
  induction rest with
  | nil =>
    intro e _ _
    simp [joinParts, myLast]
  | cons f u ih =>
    intro e he hx
    have hf : f ≠ [] := hx f (by simp)
    have hj : joinParts (f :: u) ≠ [] := joinParts_ne u f hf
    rw [show joinParts (e :: f :: u) = e ++ (',' :: joinParts (f :: u)) from rfl]
    rw [lastCh_append e _ (by simp)]
    rw [lastCh_cons ',' _ hj]
    rw [ih f hf (fun x hxx => hx x (by simp [hxx]))]
    simp [myLast, List.getLastD_cons]

theorem jsTrim_joinParts (elems : List Str) (hne : elems ≠ [])
    (hall : ∀ x ∈ elems, ElemOk x) : jsTrim (joinParts elems) = joinParts elems := by
  cases elems with
  | nil => exact absurd rfl hne
  | cons e rest =>
    have he : ElemOk e := hall e (by simp)
    have hlast : ElemOk (myLast (e :: rest)) := hall _ (myLast_mem _ (by simp))
    apply jsTrim_keep
    · rw [headCh_joinParts rest e he.1]
      exact (elemEnds e he.1 he.2.1).1
    · rw [lastCh_joinParts rest e he.1 (fun x hx => (hall x (by simp [hx])).1)]
      exact (elemEnds _ hlast.1 hlast.2.1).2

theorem jsTrim_tupleRender (elems : List Str) : jsTrim (tupleRender elems) = tupleRender elems := by
  apply jsTrim_keep
  · rfl
  · rw [show tupleRender elems = '(' :: (joinParts elems ++ [')']) from rfl]
    rw [lastCh_cons '(' _ (by simp), lastCh_concat]
    rfl

theorem strip2_tupleRender (elems : List Str) :
    stripArgsPrefix2 (tupleRender elems) = tupleRender elems := by
  unfold stripArgsPrefix2 tupleRender
  rw [jsStartsWith_cons_ne 'a' '(' _ _ (by decide),
    jsStartsWith_cons_ne 'a' '(' _ _ (by decide)]
  rfl

theorem arrForm_tupleRender (elems : List Str) : arrForm (tupleRender elems) = false := by
  unfold arrForm tupleRender
  rw [jsStartsWith_cons_ne '[' '(' _ _ (by decide)]
  rfl

theorem tupForm_tupleRender (elems : List Str) : tupForm (tupleRender elems) = true := by
  unfold tupForm tupleRender
  rw [jsStartsWith_single]
  unfold jsEndsWith
  rw [show ('(' :: (joinParts elems ++ [')'])).reverse =
    ')' :: (((joinParts elems).reverse) ++ ['(']) from by
      simp [List.reverse_cons, List.reverse_append]]
  rw [show ([')'] : Str).reverse = [')'] from rfl]
  rw [jsStartsWith_single]
  rfl

theorem inner_tupleRender (elems : List Str) :
    ((tupleRender elems).drop 1).dropLast = joinParts elems := by
  rw [show tupleRender elems = '(' :: (joinParts elems ++ [')']) from rfl]
  rw [List.drop_one, List.tail_cons]
  exact List.dropLast_concat

theorem parse2_tupleRender (jp : Str → Option JSValue) (elems : List Str)
    (hne : elems ≠ []) (hall : ∀ x ∈ elems, ElemOk x) :
    parseArgsData2 jp (tupleRender elems) = .ok (.vArr (elems.map (coercePart2 jp))) := by
  have hcl : cleanInput2 (tupleRender elems) = tupleRender elems := by
    unfold cleanInput2
    rw [jsTrim_tupleRender, strip2_tupleRender]
  have hne2 : ¬ tupleRender elems = [] := by simp [tupleRender]
  simp only [parseArgsData2, hne2, if_false, hcl, arrForm_tupleRender,
    tupForm_tupleRender, Bool.false_eq_true, if_true, inner_tupleRender,
    jsTrim_joinParts elems hne hall, splitTuple2_join elems hne hall]


theorem foldl_step1_noComma (e : Str) : ∀ (P : List Str) (cur : Str) (s : Scan1),
    hasTopComma1 s e = false →
    List.foldl step1 ⟨P, cur, s⟩ e = ⟨P, cur ++ e, scanRun1 s e⟩ := by
  induction e with
  | nil =>
    intro P cur s _
    simp [scanRun1]
  | cons c rest ih =>
    intro P cur s h
    rw [show hasTopComma1 s (c :: rest) =
      (isTopComma1 s c || hasTopComma1 (scanStep1 s c) rest) from rfl] at h
    rw [Bool.or_eq_false_iff] at h
    rw [List.foldl_cons]
    have hstep : step1 ⟨P, cur, s⟩ c = ⟨P, cur ++ [c], scanStep1 s c⟩ := by
      simp [step1, h.1]
    rw [hstep, ih _ _ _ h.2]
    simp [scanRun1]

theorem run_elem1 (e : Str) (hok : ElemOk1 e) (P : List Str) (cur : Str) :
    List.foldl step1 ⟨P, cur, initScan1⟩ e = ⟨P, cur ++ e, initScan1⟩ := by
  rw [foldl_step1_noComma e P cur initScan1 hok.2.2.2, hok.2.2.1]

theorem join_run1 : ∀ (elems : List Str) (e : Str), ElemOk1 e → (∀ x ∈ elems, ElemOk1 x) →
    ∀ (P : List Str),
    List.foldl step1 ⟨P, [], initScan1⟩ (joinParts (e :: elems)) =
      ⟨P ++ (e :: elems).dropLast, myLast (e :: elems), initScan1⟩ := by
  intro elems
  induction elems with
  | nil =>
    intro e hok _ P
    rw [show joinParts [e] = e from rfl, run_elem1 e hok P []]
    simp [myLast]
  | cons f rest ih =>
    intro e hok hall P
    rw [show joinParts (e :: f :: rest) = e ++ (',' :: joinParts (f :: rest)) from rfl,
      List.foldl_append]
    rw [run_elem1 e hok P [], List.foldl_cons]
    have hstep : step1 ⟨P, [] ++ e, initScan1⟩ ',' =
        ⟨P ++ [jsTrim ([] ++ e)], [], scanStep1 initScan1 ','⟩ := by
      simp [step1, show isTopComma1 initScan1 ',' = true from by decide]
    rw [hstep]
    rw [show jsTrim ([] ++ e) = e from by simpa using hok.2.1]
    rw [show scanStep1 initScan1 ',' = initScan1 from by decide]
    rw [ih f (hall f (by simp)) (fun x hx => hall x (by simp [hx])) (P ++ [e])]
    rw [show (e :: f :: rest).dropLast = e :: (f :: rest).dropLast from rfl]
    have hl : myLast (e :: f :: rest) = myLast (f :: rest) := by
      simp [myLast, List.getLastD_cons]
    rw [hl]
    simp

theorem splitTuple1_join (elems : List Str) (hne : elems ≠ [])
    (hall : ∀ x ∈ elems, ElemOk1 x) :
    splitTuple1 (joinParts elems) = elems := by
  cases elems with
  | nil => exact absurd rfl hne
  | cons e rest =>
    have hrun := join_run1 rest e (hall e (by simp)) (fun x hx => hall x (by simp [hx])) []
    have hlast : ElemOk1 (myLast (e :: rest)) := hall _ (myLast_mem _ (by simp))
    show (let st := (joinParts (e :: rest)).foldl step1 ⟨[], [], initScan1⟩
      if jsTrim st.current = [] then st.parts else st.parts ++ [jsTrim st.current]) = e :: rest
    simp only
    rw [show (joinParts (e :: rest)).foldl step1 ⟨[], [], initScan1⟩ =
      List.foldl step1 ⟨[], [], initScan1⟩ (joinParts (e :: rest)) from rfl]
    rw [hrun]
    simp only
    rw [hlast.2.1, if_neg hlast.1]
    simpa using dropLast_concat_myLast (e :: rest) (by simp)

theorem strip1_tupleRender (elems : List Str) :
    stripArgsPrefix1 (tupleRender elems) = tupleRender elems := by
  unfold stripArgsPrefix1 tupleRender
  rw [jsStartsWith_cons_ne 'a' '(' _ _ (by decide)]
  rfl

theorem parse1_tupleRender (jp : Str → Option JSValue) (elems : List Str)
    (hne : elems ≠ []) (hall : ∀ x ∈ elems, ElemOk1 x) :
    parseArgsData jp (tupleRender elems) = .ok (.vArr (elems.map (coercePart1 jp))) := by
  have hcl : cleanInput1 (tupleRender elems) = tupleRender elems := by
    unfold cleanInput1
    rw [strip1_tupleRender, jsTrim_tupleRender]
  simp only [parseArgsData, hcl, arrForm_tupleRender, tupForm_tupleRender,
    Bool.false_eq_true, if_false, if_true, inner_tupleRender,
    splitTuple1_join elems hne hall]

/-- C2 (amended). The `part_000` version of `extractDataFromArgs` succeeds
only when all six positional arguments are present and minimally
well-typed: it throws when the parsed array has fewer than six elements,
and success implies the first element is a string accepted by `isAddress`,
the third element (after the optional string-to-object step) is a truthy
object, and the elements at positions 3, 4, 5 are all present (truthy).
The `rejoin_validator_set.js` version performs none of these checks except
the object check on the third element (see the counterexample). -/
theorem c2_extract_validations (jp : Str → Option JSValue) (isAddr : Str → Bool) (xs : List JSValue) :
    (xs.length < 6 → (extractDataFromArgs2 jp isAddr (.vArr xs)).isOk = false) ∧
    (∀ d, extractDataFromArgs2 jp isAddr (.vArr xs) = .ok d →
      6 ≤ xs.length ∧
      (∃ a, xs.getD 0 .vUndefined = .vStr a ∧ isAddr a = true) ∧
      truthy d.zkPassportData = true ∧ typeofIsObject d.zkPassportData = true ∧
      truthy (xs.getD 3 .vUndefined) = true ∧ truthy (xs.getD 4 .vUndefined) = true ∧
      truthy (xs.getD 5 .vUndefined) = true) := by
  constructor
  · intro h
    simp [extractDataFromArgs2, h, Except.isOk, Except.toBool]
  · intro d h
    simp only [extractDataFromArgs2] at h
    by_cases h6 : xs.length < 6
    · simp only [h6, if_true] at h
      cases h
    · simp only [h6, if_false] at h
      refine ⟨by omega, ?_⟩
      cases hidx : jsIndex (JSValue.vArr xs) 0 <;> simp only [hidx] at h
      case neg.vUndefined => cases h
      case neg.vNull => cases h
      case neg.vBool b => cases h
      case neg.vNum n => cases h
      case neg.vArr l => cases h
      case neg.vObj fs => cases h
      case neg.vStr a =>
        by_cases hA : (!isAddr a) = true
        · simp only [hA, if_true] at h
          cases h
        · simp only [hA, Bool.if_false_left] at h
          by_cases hM : (!isArrayV (if truthy (jsIndex (JSValue.vArr xs) 1) = true
              then jsIndex (JSValue.vArr xs) 1 else JSValue.vArr [])) = true
          · simp only [hM, if_true] at h
            cases h
          · simp only [hM, if_false] at h
            by_cases hZ : (!truthy (zkCoerce jp (jsIndex (JSValue.vArr xs) 2)) ||
                !typeofIsObject (zkCoerce jp (jsIndex (JSValue.vArr xs) 2))) = true
            · simp only [hZ, if_true] at h
              cases h
            · simp only [hZ, if_false] at h
              by_cases hB : (!truthy (jsIndex (JSValue.vArr xs) 3) ||
                  !truthy (jsIndex (JSValue.vArr xs) 4) ||
                  !truthy (jsIndex (JSValue.vArr xs) 5)) = true
              · simp only [hB, if_true] at h
                cases h
              · simp only [hB, if_false] at h
                injection h with hd
                subst hd
                simp only [Bool.not_eq_true] at hA
                simp only [Bool.or_eq_true, not_or, Bool.not_eq_true, Bool.not_eq_false] at hZ hB
                refine ⟨⟨a, ?_, by simpa using hA⟩, ?_, ?_, ?_, ?_, ?_⟩
                · rw [show xs.getD 0 JSValue.vUndefined = jsIndex (JSValue.vArr xs) 0 from rfl, hidx]
                · have hz1 := hZ.1
                  rw [Bool.not_eq_false'] at hz1
                  exact hz1
                · have hz2 := hZ.2
                  rw [Bool.not_eq_false'] at hz2
                  exact hz2
                · have h3 := hB.1.1
                  rw [Bool.not_eq_false'] at h3
                  exact h3
                · have h4 := hB.1.2
                  rw [Bool.not_eq_false'] at h4
                  exact h4
                · have h5 := hB.2
                  rw [Bool.not_eq_false'] at h5
                  exact h5


theorem extract1_ok_fields (jp : Str → Option JSValue) (args : JSValue) (d : ExtractedData)
    (h : extractDataFromArgs jp args = .ok d) :
    d.attester = jsIndex args 0 ∧
    d.merkleProof = (if truthy (jsIndex args 1) then jsIndex args 1 else .vArr []) ∧
    d.zkPassportData = zkCoerce jp (jsIndex args 2) ∧
    d.publicKeyG1 = jsIndex args 3 ∧ d.publicKeyG2 = jsIndex args 4 ∧
    d.signature = jsIndex args 5 := by
  unfold extractDataFromArgs at h
  cases hz : jsIndex args 2 <;> simp only [hz] at h
  case vUndefined => cases h
  all_goals (
    split at h
    · cases h
    · injection h with hd
      subst hd
      exact ⟨rfl, rfl, rfl, rfl, rfl, rfl⟩)

theorem extract2_ok_fields (jp : Str → Option JSValue) (isAddr : Str → Bool)
    (args : JSValue) (d : ExtractedData)
    (h : extractDataFromArgs2 jp isAddr args = .ok d) :
    d.attester = jsIndex args 0 ∧
    d.merkleProof = (if truthy (jsIndex args 1) then jsIndex args 1 else .vArr []) ∧
    d.zkPassportData = zkCoerce jp (jsIndex args 2) ∧
    d.publicKeyG1 = jsIndex args 3 ∧ d.publicKeyG2 = jsIndex args 4 ∧
    d.signature = jsIndex args 5 ∧ isArrayV d.merkleProof = true := by
  cases args
  case vArr xs =>
    simp only [extractDataFromArgs2] at h
    by_cases h6 : xs.length < 6
    · rw [if_pos h6] at h
      cases h
    · rw [if_neg h6] at h
      cases hidx : jsIndex (JSValue.vArr xs) 0 <;> simp only [hidx] at h
      case neg.vUndefined => cases h
      case neg.vNull => cases h
      case neg.vBool b => cases h
      case neg.vNum n => cases h
      case neg.vArr l => cases h
      case neg.vObj fs => cases h
      case neg.vStr a =>
        by_cases hA : (!isAddr a) = true
        · simp only [hA, if_true] at h
          cases h
        · simp only [hA, Bool.if_false_left] at h
          by_cases hM : (!isArrayV (if truthy (jsIndex (JSValue.vArr xs) 1) = true
              then jsIndex (JSValue.vArr xs) 1 else JSValue.vArr [])) = true
          · simp only [hM, if_true] at h
            cases h
          · simp only [hM, if_false] at h
            by_cases hZ : (!truthy (zkCoerce jp (jsIndex (JSValue.vArr xs) 2)) ||
                !typeofIsObject (zkCoerce jp (jsIndex (JSValue.vArr xs) 2))) = true
            · simp only [hZ, if_true] at h
              cases h
            · simp only [hZ, if_false] at h
              by_cases hB : (!truthy (jsIndex (JSValue.vArr xs) 3) ||
                  !truthy (jsIndex (JSValue.vArr xs) 4) ||
                  !truthy (jsIndex (JSValue.vArr xs) 5)) = true
              · simp only [hB, if_true] at h
                cases h
              · simp only [hB, if_false] at h
                injection h with hd
                subst hd
                rw [Bool.not_eq_true] at hM
                refine ⟨rfl, rfl, rfl, rfl, rfl, rfl, ?_⟩
                rw [Bool.not_eq_false'] at hM
                exact hM
  all_goals exact absurd h (by simp [extractDataFromArgs2])


/-- C5. When either version of `extractDataFromArgs` succeeds, the six
call parameters submitted by `callAddValidator` are the extracted fields
in exactly the order attester, merkle proof, proof-verification params,
G1 public key, G2 public key, signature — taken from positions 0 through 5
of the parsed argument array (with the documented coercions: a falsy
merkle proof becomes `[]`, a string third argument is JSON-parsed). -/
theorem c5_param_order (est : Option Nat) (jp : Str → Option JSValue) (isAddr : Str → Bool)
    (xs : List JSValue) (d : ExtractedData)
    (h : extractDataFromArgs jp (.vArr xs) = .ok d ∨
      extractDataFromArgs2 jp isAddr (.vArr xs) = .ok d) :
    (callAddValidator est d).params =
      [d.attester, d.merkleProof, d.zkPassportData,
       d.publicKeyG1, d.publicKeyG2, d.signature] ∧
    d.attester = xs.getD 0 .vUndefined ∧
    d.merkleProof = (if truthy (xs.getD 1 .vUndefined) then xs.getD 1 .vUndefined else .vArr []) ∧
    d.zkPassportData = zkCoerce jp (xs.getD 2 .vUndefined) ∧
    d.publicKeyG1 = xs.getD 3 .vUndefined ∧ d.publicKeyG2 = xs.getD 4 .vUndefined ∧
    d.signature = xs.getD 5 .vUndefined := by
  refine ⟨rfl, ?_⟩
  cases h with
  | inl h1 =>
    obtain ⟨f1, f2, f3, f4, f5, f6⟩ := extract1_ok_fields jp (.vArr xs) d h1
    exact ⟨f1, f2, f3, f4, f5, f6⟩
  | inr h2 =>
    obtain ⟨f1, f2, f3, f4, f5, f6, _⟩ := extract2_ok_fields jp isAddr (.vArr xs) d h2
    exact ⟨f1, f2, f3, f4, f5, f6⟩

/-- C10 (amended). Both versions of `extractDataFromArgs` substitute the
empty array for the merkle proof whenever the second parsed argument is
missing or falsy; in `part_000` the merkleProof field of a successful
extraction is always an array (truthy non-arrays are rejected), while
`rejoin_validator_set.js` passes a truthy non-array second argument
through unchanged (see the counterexample). -/
theorem c10_merkle_default (jp : Str → Option JSValue) (isAddr : Str → Bool)
    (xs : List JSValue) (d d2 : ExtractedData) :
    (truthy (jsIndex (.vArr xs) 1) = false →
      extractDataFromArgs jp (.vArr xs) = .ok d → d.merkleProof = .vArr []) ∧
    (truthy (jsIndex (.vArr xs) 1) = false →
      extractDataFromArgs2 jp isAddr (.vArr xs) = .ok d2 → d2.merkleProof = .vArr []) ∧
    (extractDataFromArgs2 jp isAddr (.vArr xs) = .ok d2 →
      isArrayV d2.merkleProof = true) := by
  refine ⟨?_, ?_, ?_⟩
  · intro hf h1
    have hm := (extract1_ok_fields jp (.vArr xs) d h1).2.1
    rw [hm, if_neg]
    rw [hf]
    simp
  · intro hf h2
    have hm := (extract2_ok_fields jp isAddr (.vArr xs) d2 h2).2.1
    rw [hm, if_neg]
    rw [hf]
    simp
  · intro h2
    exact (extract2_ok_fields jp isAddr (.vArr xs) d2 h2).2.2.2.2.2.2

theorem countSubmits_finishCall (env : Env) (pre : List Event) (d : ExtractedData) :
    countSubmits (finishCall env pre d).trace = countSubmits pre + 1 := by
  unfold finishCall
  cases env.sendResult <;>
    simp [reportTrail, countSubmits, isSubmit, List.countP_append, List.countP_cons]

theorem countSubmits_reportTrail (pre : List Event) (e : JsErr) :
    countSubmits (reportTrail pre e).trace = countSubmits pre := by
  simp [reportTrail, countSubmits, isSubmit, List.countP_append, List.countP_cons]


theorem mainRun1_submit_count (env : Env) (inp : Inputs) :
    countSubmits (mainRun1 env inp).trace ≤ 1 ∧
    (countSubmits (mainRun1 env inp).trace = 1 → (pipeline1 env inp).isOk = true) := by
  unfold mainRun1
  by_cases hk : jsTrim inp.rawPrivateKey = []
  · simp [hk, countSubmits]
  · simp only [hk, if_false]
    cases hw : env.walletOf (jsTrim inp.rawPrivateKey) with
    | error e => simp [reportTrail, countSubmits, isSubmit, List.countP_cons, List.countP_nil, List.countP_append]
    | ok w =>
      dsimp only
      by_cases ha : jsTrim inp.rawArgsInput = []
      · simp [ha, countSubmits, isSubmit]
      · simp only [ha, if_false]
        cases hparse : parseArgsData env.jsonParse (jsTrim inp.rawArgsInput) with
        | error e => simp [reportTrail, countSubmits, isSubmit, List.countP_cons, List.countP_nil, List.countP_append]
        | ok args =>
          dsimp only
          cases hx : extractDataFromArgs env.jsonParse args with
          | error e => simp [reportTrail, countSubmits, isSubmit, List.countP_cons, List.countP_nil, List.countP_append]
          | ok d =>
            dsimp only
            have hpipe : (pipeline1 env inp).isOk = true := by
              simp [pipeline1, hparse, hx, Except.bind, Except.isOk, Except.toBool]
            cases hattr : d.attester
            case neg.ok.ok.vStr a =>
              dsimp only
              by_cases hm : jsLower w.address = jsLower a
              · rw [if_pos hm]
                rw [show countSubmits (finishCall env
                  [Event.walletCreated w.address, Event.dataParsed, Event.dataExtracted] d).trace =
                  countSubmits [Event.walletCreated w.address, Event.dataParsed,
                    Event.dataExtracted] + 1 from countSubmits_finishCall env _ d]
                simp [countSubmits, isSubmit, List.countP_cons, hpipe]
              · rw [if_neg hm]
                by_cases hc : jsLower (jsTrim inp.rawConfirm) = ['y']
                · rw [if_pos hc]
                  rw [countSubmits_finishCall]
                  simp [countSubmits, isSubmit, List.countP_append, List.countP_cons, hpipe]
                · rw [if_neg hc]
                  simp [countSubmits, isSubmit, List.countP_append, List.countP_cons]
            all_goals simp [reportTrail, countSubmits, isSubmit, List.countP_cons, List.countP_nil, List.countP_append]

theorem mainRun2_submit_count (env : Env) (inp : Inputs) :
    countSubmits (mainRun2 env inp).trace ≤ 1 ∧
    (countSubmits (mainRun2 env inp).trace = 1 → (pipeline2 env inp).isOk = true) := by
  unfold mainRun2
  by_cases hk : jsTrim inp.rawPrivateKey = []
  · simp [hk, countSubmits]
  · simp only [hk, if_false]
    cases hw : env.walletOf (jsTrim inp.rawPrivateKey) with
    | error e => simp [reportTrail, countSubmits, isSubmit, List.countP_cons, List.countP_nil, List.countP_append]
    | ok w =>
      dsimp only
      cases hparse : parseArgsData2 env.jsonParse (jsTrim inp.rawArgsInput) with
      | error e => simp [reportTrail, countSubmits, isSubmit, List.countP_cons, List.countP_nil, List.countP_append]
      | ok args =>
        dsimp only
        cases hx : extractDataFromArgs2 env.jsonParse env.isAddress args with
        | error e => simp [reportTrail, countSubmits, isSubmit, List.countP_cons, List.countP_nil, List.countP_append]
        | ok d =>
          dsimp only
          have hpipe : (pipeline2 env inp).isOk = true := by
            simp [pipeline2, hparse, hx, Except.bind, Except.isOk, Except.toBool]
          cases hattr : d.attester
          case neg.ok.ok.ok.vStr a =>
            dsimp only
            by_cases hm : jsLower w.address = jsLower a
            · rw [if_pos hm, countSubmits_finishCall]
              simp [countSubmits, isSubmit, List.countP_cons, hpipe]
            · rw [if_neg hm]
              by_cases hc : jsLower (jsTrim inp.rawConfirm) = ['y']
              · rw [if_pos hc, countSubmits_finishCall]
                simp [countSubmits, isSubmit, List.countP_append, List.countP_cons, hpipe]
              · rw [if_neg hc]
                simp [countSubmits, isSubmit, List.countP_append, List.countP_cons]
          all_goals simp [reportTrail, countSubmits, isSubmit, List.countP_cons, List.countP_nil, List.countP_append]


theorem caught_trace1 (env : Env) (inp : Inputs) :
    ∀ e, (mainRun1 env inp).outcome = .caught e →
      ∃ pre, (mainRun1 env inp).trace = pre ++ [.printError e, .printHints] := by
  intro e h
  unfold mainRun1 at h ⊢
  by_cases hk : jsTrim inp.rawPrivateKey = []
  · simp only [hk, if_true] at h
    cases h
  · simp only [hk, if_false] at h ⊢
    cases hw : env.walletOf (jsTrim inp.rawPrivateKey) <;> simp only [hw] at h ⊢
    · injection h with h0
      subst h0
      exact ⟨[], rfl⟩
    · by_cases ha : jsTrim inp.rawArgsInput = []
      · simp only [ha, if_true] at h
        cases h
      · simp only [ha, if_false] at h ⊢
        cases hparse : parseArgsData env.jsonParse (jsTrim inp.rawArgsInput) <;>
          simp only [hparse] at h ⊢
        · injection h with h0
          subst h0
          exact ⟨_, rfl⟩
        · cases hx : extractDataFromArgs env.jsonParse _ <;> simp only [hx] at h ⊢
          · injection h with h0
            subst h0
            exact ⟨_, rfl⟩
          · rename_i w args d
            cases hattr : d.attester <;> simp only [hattr] at h ⊢
            case neg.ok.ok.vStr a =>
              by_cases hm : jsLower w.address = jsLower a
              · simp only [hm, if_true] at h ⊢
                unfold finishCall at h ⊢
                cases hs : env.sendResult <;> simp only [hs] at h ⊢
                · injection h with h0
                  subst h0
                  exact ⟨_, rfl⟩
                · cases h
              · simp only [hm, if_false] at h ⊢
                by_cases hc : jsLower (jsTrim inp.rawConfirm) = ['y']
                · simp only [hc, if_true] at h ⊢
                  unfold finishCall at h ⊢
                  cases hs : env.sendResult <;> simp only [hs] at h ⊢
                  · injection h with h0
                    subst h0
                    exact ⟨_, rfl⟩
                  · cases h
                · simp only [hc, if_false] at h
                  cases h
            all_goals (
              injection h with h0
              subst h0
              exact ⟨_, rfl⟩)


theorem caught_trace2 (env : Env) (inp : Inputs) :
    ∀ e, (mainRun2 env inp).outcome = .caught e →
      ∃ pre, (mainRun2 env inp).trace = pre ++ [.printError e, .printHints] := by
  intro e h
  unfold mainRun2 at h ⊢
  by_cases hk : jsTrim inp.rawPrivateKey = []
  · simp only [hk, if_true] at h
    cases h
  · simp only [hk, if_false] at h ⊢
    cases hw : env.walletOf (jsTrim inp.rawPrivateKey) <;> simp only [hw] at h ⊢
    · injection h with h0
      subst h0
      exact ⟨[], rfl⟩
    · cases hparse : parseArgsData2 env.jsonParse (jsTrim inp.rawArgsInput) <;>
        simp only [hparse] at h ⊢
      · injection h with h0
        subst h0
        exact ⟨_, rfl⟩
      · cases hx : extractDataFromArgs2 env.jsonParse env.isAddress _ <;>
          simp only [hx] at h ⊢
        · injection h with h0
          subst h0
          exact ⟨_, rfl⟩
        · rename_i w args d
          cases hattr : d.attester <;> simp only [hattr] at h ⊢
          case neg.ok.ok.ok.vStr a =>
            by_cases hm : jsLower w.address = jsLower a
            · simp only [hm, if_true] at h ⊢
              unfold finishCall at h ⊢
              cases hs : env.sendResult <;> simp only [hs] at h ⊢
              · injection h with h0
                subst h0
                exact ⟨_, rfl⟩
              · cases h
            · simp only [hm, if_false] at h ⊢
              by_cases hc : jsLower (jsTrim inp.rawConfirm) = ['y']
              · simp only [hc, if_true] at h ⊢
                unfold finishCall at h ⊢
                cases hs : env.sendResult <;> simp only [hs] at h ⊢
                · injection h with h0
                  subst h0
                  exact ⟨_, rfl⟩
                · cases h
              · simp only [hc, if_false] at h
                cases h
          all_goals (
            injection h with h0
            subst h0
            exact ⟨_, rfl⟩)


/-- C9. In both versions of `main`, when the wallet address differs
case-insensitively from the extracted attester address, a transaction is
submitted exactly when the trimmed confirmation answer lowercases to `y`;
for any other answer nothing is submitted and the run ends cancelled. -/
theorem c9_mismatch_confirmation (env : Env) (inp : Inputs) :
    (∀ (w : Wallet) (a : Str) (d : ExtractedData),
      jsTrim inp.rawPrivateKey ≠ [] →
      env.walletOf (jsTrim inp.rawPrivateKey) = .ok w →
      jsTrim inp.rawArgsInput ≠ [] →
      pipeline1 env inp = .ok d → d.attester = .vStr a →
      jsLower w.address ≠ jsLower a →
      (countSubmits (mainRun1 env inp).trace =
        if jsLower (jsTrim inp.rawConfirm) = ['y'] then 1 else 0) ∧
      (jsLower (jsTrim inp.rawConfirm) ≠ ['y'] →
        (mainRun1 env inp).outcome = .cancelled)) ∧
    (∀ (w : Wallet) (a : Str) (d : ExtractedData),
      jsTrim inp.rawPrivateKey ≠ [] →
      env.walletOf (jsTrim inp.rawPrivateKey) = .ok w →
      pipeline2 env inp = .ok d → d.attester = .vStr a →
      jsLower w.address ≠ jsLower a →
      (countSubmits (mainRun2 env inp).trace =
        if jsLower (jsTrim inp.rawConfirm) = ['y'] then 1 else 0) ∧
      (jsLower (jsTrim inp.rawConfirm) ≠ ['y'] →
        (mainRun2 env inp).outcome = .cancelled)) := by
  constructor
  · intro w a d hk hw ha hp hattr hmm
    cases hparse : parseArgsData env.jsonParse (jsTrim inp.rawArgsInput) with
    | error e =>
      unfold pipeline1 at hp
      rw [hparse] at hp
      simp [Except.bind] at hp
    | ok args =>
      have hx : extractDataFromArgs env.jsonParse args = .ok d := by
        unfold pipeline1 at hp
        rw [hparse] at hp
        simpa [Except.bind] using hp
      unfold mainRun1
      simp only [hk, if_false, hw, ha, hparse, hx, hattr]
      rw [if_neg hmm]
      by_cases hc : jsLower (jsTrim inp.rawConfirm) = ['y']
      · constructor
        · rw [if_pos hc, if_pos hc, countSubmits_finishCall]
          simp [countSubmits, isSubmit, List.countP_cons, List.countP_nil, List.countP_append]
        · intro hcc
          exact absurd hc hcc
      · constructor
        · rw [if_neg hc, if_neg hc]
          simp [countSubmits, isSubmit, List.countP_cons, List.countP_nil, List.countP_append]
        · intro _
          rw [if_neg hc]
  · intro w a d hk hw hp hattr hmm
    cases hparse : parseArgsData2 env.jsonParse (jsTrim inp.rawArgsInput) with
    | error e =>
      unfold pipeline2 at hp
      rw [hparse] at hp
      simp [Except.bind] at hp
    | ok args =>
      have hx : extractDataFromArgs2 env.jsonParse env.isAddress args = .ok d := by
        unfold pipeline2 at hp
        rw [hparse] at hp
        simpa [Except.bind] using hp
      unfold mainRun2
      simp only [hk, if_false, hw, hparse, hx, hattr]
      rw [if_neg hmm]
      by_cases hc : jsLower (jsTrim inp.rawConfirm) = ['y']
      · constructor
        · rw [if_pos hc, if_pos hc, countSubmits_finishCall]
          simp [countSubmits, isSubmit, List.countP_cons, List.countP_nil, List.countP_append]
        · intro hcc
          exact absurd hc hcc
      · constructor
        · rw [if_neg hc, if_neg hc]
          simp [countSubmits, isSubmit, List.countP_cons, List.countP_nil, List.countP_append]
        · intro _
          rw [if_neg hc]


/-- A failed transaction send is caught in `rejoin_validator_set.js`'s
`main` on every path that actually submits: whenever the trace of a run
contains a submission and the send result is an error, the run ends with
that error caught. -/
theorem send_error_caught1 (env : Env) (inp : Inputs) :
    ∀ e, env.sendResult = .error e →
      countSubmits (mainRun1 env inp).trace = 1 →
      (mainRun1 env inp).outcome = .caught e := by
  intro e hsend hcount
  unfold mainRun1 at hcount ⊢
  by_cases hk : jsTrim inp.rawPrivateKey = []
  · simp only [hk, if_true] at hcount
    simp [countSubmits] at hcount
  · simp only [hk, if_false] at hcount ⊢
    cases hw : env.walletOf (jsTrim inp.rawPrivateKey) <;> simp only [hw] at hcount ⊢
    · simp [reportTrail, countSubmits, isSubmit, List.countP_cons, List.countP_nil] at hcount
    · by_cases ha : jsTrim inp.rawArgsInput = []
      · simp only [ha, if_true] at hcount
        simp [countSubmits, isSubmit, List.countP_cons, List.countP_nil] at hcount
      · simp only [ha, if_false] at hcount ⊢
        cases hparse : parseArgsData env.jsonParse (jsTrim inp.rawArgsInput) <;>
          simp only [hparse] at hcount ⊢
        · simp [reportTrail, countSubmits, isSubmit, List.countP_cons, List.countP_nil] at hcount
        · cases hx : extractDataFromArgs env.jsonParse _ <;> simp only [hx] at hcount ⊢
          · simp [reportTrail, countSubmits, isSubmit, List.countP_cons, List.countP_nil] at hcount
          · rename_i w args d
            cases hattr : d.attester <;> simp only [hattr] at hcount ⊢
            case neg.ok.ok.vStr a =>
              by_cases hm : jsLower w.address = jsLower a
              · simp only [hm, if_true]
                unfold finishCall
                rw [hsend]
                rfl
              · simp only [hm, if_false] at hcount ⊢
                by_cases hc : jsLower (jsTrim inp.rawConfirm) = ['y']
                · simp only [hc, if_true]
                  unfold finishCall
                  rw [hsend]
                  rfl
                · simp only [hc, if_false] at hcount
                  simp [countSubmits, isSubmit, List.countP_append, List.countP_cons,
                    List.countP_nil] at hcount
            all_goals
              simp [reportTrail, countSubmits, isSubmit, List.countP_cons,
                List.countP_nil] at hcount


/-- A failed transaction send is caught in `part_000`'s `main` on every
path that actually submits. -/
theorem send_error_caught2 (env : Env) (inp : Inputs) :
    ∀ e, env.sendResult = .error e →
      countSubmits (mainRun2 env inp).trace = 1 →
      (mainRun2 env inp).outcome = .caught e := by
  intro e hsend hcount
  unfold mainRun2 at hcount ⊢
  by_cases hk : jsTrim inp.rawPrivateKey = []
  · simp only [hk, if_true] at hcount
    simp [countSubmits] at hcount
  · simp only [hk, if_false] at hcount ⊢
    cases hw : env.walletOf (jsTrim inp.rawPrivateKey) <;> simp only [hw] at hcount ⊢
    · simp [reportTrail, countSubmits, isSubmit, List.countP_cons, List.countP_nil] at hcount
    · cases hparse : parseArgsData2 env.jsonParse (jsTrim inp.rawArgsInput) <;>
        simp only [hparse] at hcount ⊢
      · simp [reportTrail, countSubmits, isSubmit, List.countP_cons, List.countP_nil] at hcount
      · cases hx : extractDataFromArgs2 env.jsonParse env.isAddress _ <;>
          simp only [hx] at hcount ⊢
        · simp [reportTrail, countSubmits, isSubmit, List.countP_cons, List.countP_nil] at hcount
        · rename_i w args d
          cases hattr : d.attester <;> simp only [hattr] at hcount ⊢
          case neg.ok.ok.ok.vStr a =>
            by_cases hm : jsLower w.address = jsLower a
            · simp only [hm, if_true]
              unfold finishCall
              rw [hsend]
              rfl
            · simp only [hm, if_false] at hcount ⊢
              by_cases hc : jsLower (jsTrim inp.rawConfirm) = ['y']
              · simp only [hc, if_true]
                unfold finishCall
                rw [hsend]
                rfl
              · simp only [hc, if_false] at hcount
                simp [countSubmits, isSubmit, List.countP_append, List.countP_cons,
                  List.countP_nil] at hcount
          all_goals
            simp [reportTrail, countSubmits, isSubmit, List.countP_cons,
              List.countP_nil] at hcount

/-- C8. Every error raised during wallet creation, parsing, extraction or
transaction submission is caught inside `main` and reported as an error
message followed by the static troubleshooting hints (a `caught` outcome
always ends the trace with the error print and the hints).  Submission
errors are covered in full generality for both files: whenever a run of
either `main` actually submits a transaction (its trace contains a
submission, on the address-match path or the mismatch-confirmed path
alike) and the send result is an error, the run ends with that error
caught.  The process exit code is 0 — non-zero only on an unhandled
top-level rejection, which cannot occur since `main` catches every step
error. -/
theorem c8_errors_caught_reported (env : Env) (inp : Inputs) :
    (∀ e, (mainRun1 env inp).outcome = .caught e →
      ∃ pre, (mainRun1 env inp).trace = pre ++ [.printError e, .printHints]) ∧
    (∀ e, (mainRun2 env inp).outcome = .caught e →
      ∃ pre, (mainRun2 env inp).trace = pre ++ [.printError e, .printHints]) ∧
    (∀ e, jsTrim inp.rawPrivateKey ≠ [] →
      env.walletOf (jsTrim inp.rawPrivateKey) = .error e →
      (mainRun1 env inp).outcome = .caught e ∧
      (mainRun2 env inp).outcome = .caught .invalidPrivateKey) ∧
    (∀ w e, jsTrim inp.rawPrivateKey ≠ [] →
      env.walletOf (jsTrim inp.rawPrivateKey) = .ok w →
      jsTrim inp.rawArgsInput ≠ [] →
      pipeline1 env inp = .error e →
      (mainRun1 env inp).outcome = .caught e) ∧
    (∀ w e, jsTrim inp.rawPrivateKey ≠ [] →
      env.walletOf (jsTrim inp.rawPrivateKey) = .ok w →
      pipeline2 env inp = .error e →
      (mainRun2 env inp).outcome = .caught e) ∧
    (∀ w a d e, jsTrim inp.rawPrivateKey ≠ [] →
      env.walletOf (jsTrim inp.rawPrivateKey) = .ok w →
      jsTrim inp.rawArgsInput ≠ [] →
      pipeline1 env inp = .ok d → d.attester = .vStr a →
      jsLower w.address = jsLower a →
      env.sendResult = .error e →
      (mainRun1 env inp).outcome = .caught e) ∧
    (∀ e, env.sendResult = .error e →
      countSubmits (mainRun1 env inp).trace = 1 →
      (mainRun1 env inp).outcome = .caught e) ∧
    (∀ e, env.sendResult = .error e →
      countSubmits (mainRun2 env inp).trace = 1 →
      (mainRun2 env inp).outcome = .caught e) ∧
    runScript1 env inp = 0 ∧ runScript2 env inp = 0 := by
  refine ⟨caught_trace1 env inp, caught_trace2 env inp, ?_, ?_, ?_, ?_,
    send_error_caught1 env inp, send_error_caught2 env inp, rfl, rfl⟩
  · intro e hk hw
    constructor
    · unfold mainRun1
      simp only [hk, if_false, hw]
      rfl
    · unfold mainRun2
      simp only [hk, if_false, hw]
      rfl
  · intro w e hk hw ha hp
    cases hparse : parseArgsData env.jsonParse (jsTrim inp.rawArgsInput) with
    | error e0 =>
      have he : e0 = e := by
        unfold pipeline1 at hp
        rw [hparse] at hp
        simpa [Except.bind] using hp
      subst he
      unfold mainRun1
      simp only [hk, if_false, hw, ha, hparse]
      rfl
    | ok args =>
      have hx : extractDataFromArgs env.jsonParse args = .error e := by
        unfold pipeline1 at hp
        rw [hparse] at hp
        simpa [Except.bind] using hp
      unfold mainRun1
      simp only [hk, if_false, hw, ha, hparse, hx]
      rfl
  · intro w e hk hw hp
    cases hparse : parseArgsData2 env.jsonParse (jsTrim inp.rawArgsInput) with
    | error e0 =>
      have he : e0 = e := by
        unfold pipeline2 at hp
        rw [hparse] at hp
        simpa [Except.bind] using hp
      subst he
      unfold mainRun2
      simp only [hk, if_false, hw, hparse]
      rfl
    | ok args =>
      have hx : extractDataFromArgs2 env.jsonParse env.isAddress args = .error e := by
        unfold pipeline2 at hp
        rw [hparse] at hp
        simpa [Except.bind] using hp
      unfold mainRun2
      simp only [hk, if_false, hw, hparse, hx]
      rfl
  · intro w a d e hk hw ha hp hattr hm hsend
    cases hparse : parseArgsData env.jsonParse (jsTrim inp.rawArgsInput) with
    | error e0 =>
      unfold pipeline1 at hp
      rw [hparse] at hp
      simp [Except.bind] at hp
    | ok args =>
      have hx : extractDataFromArgs env.jsonParse args = .ok d := by
        unfold pipeline1 at hp
        rw [hparse] at hp
        simpa [Except.bind] using hp
      unfold mainRun1
      simp only [hk, if_false, hw, ha, hparse, hx, hattr]
      rw [if_pos hm]
      unfold finishCall
      rw [hsend]
      rfl


/-- C3 (amended). Both versions of `parseArgsData` accept exactly two
input formats: when the cleaned input is in JSON-array form and
`JSON.parse` succeeds, the parsed value is returned; when the cleaned
input is in neither JSON-array form nor tuple form, an invalid-input-format
error is thrown — except that the `part_000` version rejects an empty
input with a distinct no-input error (see the counterexample). -/
theorem c3_two_input_formats (jp : Str → Option JSValue) (s : Str) :
    (∀ v, arrForm (cleanInput1 s) = true → jp (cleanInput1 s) = some v →
      parseArgsData jp s = .ok v) ∧
    (arrForm (cleanInput1 s) = false → tupForm (cleanInput1 s) = false →
      parseArgsData jp s = .error .invalidFormat) ∧
    (∀ v, s ≠ [] → arrForm (cleanInput2 s) = true → jp (cleanInput2 s) = some v →
      parseArgsData2 jp s = .ok v) ∧
    (s ≠ [] → arrForm (cleanInput2 s) = false → tupForm (cleanInput2 s) = false →
      parseArgsData2 jp s = .error .invalidFormat) := by
  refine ⟨?_, ?_, ?_, ?_⟩
  · intro v h1 h2
    simp only [parseArgsData, h1, if_true, h2]
  · intro h1 h2
    simp only [parseArgsData, h1, h2, Bool.false_eq_true, if_false]
  · intro v hs h1 h2
    simp only [parseArgsData2, hs, if_false, h1, if_true, h2]
  · intro hs h1 h2
    simp only [parseArgsData2, hs, if_false, h1, h2, Bool.false_eq_true]

theorem dropWhile_all (ws arr : Str) (h : ∀ c ∈ ws, isWs c = true) :
    List.dropWhile isWs (ws ++ arr) = List.dropWhile isWs arr := by
  induction ws with
  | nil => rfl
  | cons c t ih =>
    rw [List.cons_append, List.dropWhile_cons, h c (by simp)]
    simp only [eq_self_iff_true, if_true]
    exact ih (fun x hx => h x (by simp [hx]))

theorem jsStartsWith_self_append (p rest : Str) : jsStartsWith p (p ++ rest) = true := by
  simp [jsStartsWith, List.take_left]

theorem startsWith_head (c : Char) (s : Str) (h : jsStartsWith [c] s = true) :
    ∃ t, s = c :: t := by
  cases s with
  | nil => simp [jsStartsWith] at h
  | cons d t =>
    simp only [jsStartsWith, List.length_cons, List.length_nil, List.take_succ_cons,
      List.take_zero, decide_eq_true_eq, List.cons.injEq] at h
    exact ⟨t, by rw [h.1]⟩

/-- C4. In `rejoin_validator_set.js`, the entire `args:` prefix and any
following whitespace are removed before format detection, so a prefixed
JSON-array input parses exactly like the unprefixed input.  In `part_000`
the claim fails: `substring(4)` drops only four of the five prefix
characters, the leftover colon defeats format detection, and the input
`args:[]` — which the script's own instructions tell the user to paste —
is rejected as invalid. -/
theorem c4_args_prefix_removal :
    (∀ (jp : Str → Option JSValue) (ws arr : Str), (∀ c ∈ ws, isWs c = true) →
      jsStartsWith ['['] arr = true →
      parseArgsData jp ((['a', 'r', 'g', 's', ':'] ++ ws) ++ arr) = parseArgsData jp arr) ∧
    parseArgsData jsonParseTest (['a', 'r', 'g', 's', ':', '[', ']']) = .ok (.vArr []) ∧
    parseArgsData2 jsonParseTest (['a', 'r', 'g', 's', ':', '[', ']']) = .error .invalidFormat ∧
    cleanInput2 (['a', 'r', 'g', 's', ':', '[', ']']) = ([':', '[', ']']) := by
  refine ⟨?_, rfl, rfl, rfl⟩
  intro jp ws arr hws harr
  obtain ⟨t, rfl⟩ := startsWith_head '[' arr harr
  have hcl : cleanInput1 ((['a', 'r', 'g', 's', ':'] ++ ws) ++ ('[' :: t)) =
      cleanInput1 ('[' :: t) := by
    unfold cleanInput1 stripArgsPrefix1
    rw [List.append_assoc, jsStartsWith_self_append]
    simp only [eq_self_iff_true, if_true]
    rw [jsStartsWith_cons_ne 'a' '[' _ _ (by decide)]
    simp only [Bool.false_eq_true, if_false]
    rw [show ((['a', 'r', 'g', 's', ':'] ++ (ws ++ '[' :: t)).drop 5) = ws ++ '[' :: t from by
      rw [show (5 : Nat) = (['a', 'r', 'g', 's', ':'] : Str).length from rfl, List.drop_left]]
    rw [dropWhile_all ws _ hws]
    rw [List.dropWhile_cons]
    rw [show isWs '[' = false from by decide]
    simp
  simp only [parseArgsData, hcl]


/-- C6. `callAddValidator` does not abort when the RPC gas estimate
fails: it substitutes the fallback estimate of 2,000,000, and in every
case the transaction is submitted with a gas limit equal to the estimate
multiplied by 120 and integer-divided by 100 (2,400,000 for the
fallback). -/
theorem c6_gas_fallback_buffer (est : Option Nat) (d : ExtractedData) :
    (callAddValidator est d).gasLimit = (est.getD FALLBACK_GAS) * 120 / 100 ∧
    (callAddValidator none d).gasLimit = 2400000 ∧
    (callAddValidator est d).params.length = 6 := by
  refine ⟨?_, by norm_num [callAddValidator, FALLBACK_GAS], rfl⟩
  cases est <;> simp [callAddValidator, FALLBACK_GAS, Option.getD]

/-- C7. In every invocation of `main` (both versions), at most one
transaction is submitted, and a submission occurs only after
`parseArgsData` and `extractDataFromArgs` have both completed without
error on the pasted args input. -/
theorem c7_single_submission (env : Env) (inp : Inputs) :
    countSubmits (mainRun1 env inp).trace ≤ 1 ∧
    countSubmits (mainRun2 env inp).trace ≤ 1 ∧
    (countSubmits (mainRun1 env inp).trace = 1 → (pipeline1 env inp).isOk = true) ∧
    (countSubmits (mainRun2 env inp).trace = 1 → (pipeline2 env inp).isOk = true) := by
  obtain ⟨a1, b1⟩ := mainRun1_submit_count env inp
  obtain ⟨a2, b2⟩ := mainRun2_submit_count env inp
  exact ⟨a1, a2, b1, b2⟩

/-- Counterexample for C2 as stated: `rejoin_validator_set.js`'s
`extractDataFromArgs` returns successfully on a three-element array whose
first element is not a valid address and whose BLS positions 3, 4, 5 are
missing — none of the claimed throws happen. -/
theorem c2_missing_validation_counterexample :
    extractDataFromArgs jpNone
      (.vArr [.vStr (['0', 'x', 'g']), .vArr [], .vObj []]) =
      .ok ⟨.vStr (['0', 'x', 'g']), .vArr [], .vObj [], .vUndefined, .vUndefined, .vUndefined⟩ ∧
    ([JSValue.vStr (['0', 'x', 'g']), .vArr [], .vObj []]).length < 6 :=
  ⟨rfl, by decide⟩

/-- Witness for C2: a one-element argument array is rejected, and on a
six-element well-formed array the extraction succeeds with the listed
guarantees. -/
theorem c2_extract_validations_witness :
    (extractDataFromArgs2 jsonParseTest isAddressTest (.vArr [.vNum 1])).isOk = false ∧
    6 ≤ sixOkArgs.length ∧ truthy dOk.zkPassportData = true :=
  ⟨(c2_extract_validations jsonParseTest isAddressTest [.vNum 1]).1 (by decide),
   ((c2_extract_validations jsonParseTest isAddressTest sixOkArgs).2 dOk (by rfl)).1,
   ((c2_extract_validations jsonParseTest isAddressTest sixOkArgs).2 dOk (by rfl)).2.2.1⟩

/-- Witness for C3: the JSON array `[]` is parsed, and the neither-form
input `x` is rejected with the invalid-format error. -/
theorem c3_two_input_formats_witness :
    parseArgsData jsonParseTest (['[', ']']) = .ok (.vArr []) ∧
    parseArgsData2 jsonParseTest (['x']) = .error .invalidFormat :=
  ⟨(c3_two_input_formats jsonParseTest (['[', ']'])).1 (.vArr []) (by decide) rfl,
   (c3_two_input_formats jsonParseTest (['x'])).2.2.2 (by decide) (by decide) (by decide)⟩

/-- Counterexample for C3 as stated: the empty input is in neither format,
yet the `part_000` version throws its no-input error, not an error
reporting an invalid input format. -/
theorem c3_empty_input_counterexample :
    parseArgsData2 jpNone [] = .error .noInput ∧
    arrForm (cleanInput2 []) = false ∧ tupForm (cleanInput2 []) = false ∧
    JsErr.noInput ≠ JsErr.invalidFormat :=
  ⟨rfl, rfl, rfl, by decide⟩

/-- Witness for C4: `args: []` parses exactly like `[]` in
`rejoin_validator_set.js`. -/
theorem c4_args_prefix_removal_witness :
    parseArgsData jsonParseTest ((['a', 'r', 'g', 's', ':'] ++ [' ']) ++ ['[', ']']) =
      parseArgsData jsonParseTest (['[', ']']) :=
  (c4_args_prefix_removal).1 jsonParseTest [' '] (['[', ']']) (by decide) (by decide)

/-- Witness for C5 at the concrete six-element argument array. -/
theorem c5_param_order_witness :
    (callAddValidator (some 100) dOk).params =
      [dOk.attester, dOk.merkleProof, dOk.zkPassportData,
       dOk.publicKeyG1, dOk.publicKeyG2, dOk.signature] ∧
    dOk.attester = sixOkArgs.getD 0 .vUndefined ∧
    dOk.signature = sixOkArgs.getD 5 .vUndefined :=
  ⟨(c5_param_order (some 100) jsonParseTest isAddressTest sixOkArgs dOk (Or.inl (by rfl))).1,
   (c5_param_order (some 100) jsonParseTest isAddressTest sixOkArgs dOk (Or.inl (by rfl))).2.1,
   (c5_param_order (some 100) jsonParseTest isAddressTest sixOkArgs dOk (Or.inl (by rfl))).2.2.2.2.2.2⟩

/-- Witness for C7 on a concrete run that submits. -/
theorem c7_single_submission_witness :
    countSubmits (mainRun1 envOk inpOk).trace ≤ 1 ∧
    (pipeline1 envOk inpOk).isOk = true :=
  ⟨(c7_single_submission envOk inpOk).1, (c7_single_submission envOk inpOk).2.2.1 (by rfl)⟩

/-- Witness for C8 on a run whose wallet construction fails, and on
runs of both versions whose transaction send fails after a submission. -/
theorem c8_errors_caught_reported_witness :
    (mainRun1 envWalletErr inpOk).outcome = .caught (.other (['b', 'a', 'd'])) ∧
    (mainRun2 envWalletErr inpOk).outcome = .caught .invalidPrivateKey ∧
    (mainRun1 envSendErr inpOk).outcome = .caught (.other (['s', 'e'])) ∧
    (mainRun2 envSendErr inpOk).outcome = .caught (.other (['s', 'e'])) ∧
    runScript1 envWalletErr inpOk = 0 ∧ runScript2 envWalletErr inpOk = 0 :=
  ⟨((c8_errors_caught_reported envWalletErr inpOk).2.2.1 (.other (['b', 'a', 'd'])) (by decide) rfl).1,
   ((c8_errors_caught_reported envWalletErr inpOk).2.2.1 (.other (['b', 'a', 'd'])) (by decide) rfl).2,
   (c8_errors_caught_reported envSendErr inpOk).2.2.2.2.2.2.1 (.other (['s', 'e'])) rfl (by rfl),
   (c8_errors_caught_reported envSendErr inpOk).2.2.2.2.2.2.2.1 (.other (['s', 'e'])) rfl (by rfl),
   (c8_errors_caught_reported envWalletErr inpOk).2.2.2.2.2.2.2.2.1,
   (c8_errors_caught_reported envWalletErr inpOk).2.2.2.2.2.2.2.2.2⟩

/-- Witness for C9 on a mismatched run answered `n`. -/
theorem c9_mismatch_confirmation_witness :
    countSubmits (mainRun1 envMismatch inpOk).trace = 0 ∧
    (mainRun1 envMismatch inpOk).outcome = .cancelled := by
  have h := (c9_mismatch_confirmation envMismatch inpOk).1 ⟨['0', 'x', 'C', 'D']⟩ (['0', 'x', 'a', 'b']) dOk
    (by decide) rfl (by decide) rfl rfl (by decide)
  refine ⟨?_, h.2 (by decide)⟩
  rw [h.1]
  rfl

/-- Witness for C10: the falsy second argument becomes the empty array,
and the `part_000` extraction yields an array merkle proof. -/
theorem c10_merkle_default_witness :
    dOk.merkleProof = .vArr [] ∧ isArrayV dOk.merkleProof = true :=
  ⟨(c10_merkle_default jpNone isAddressTest xsFalsyMerkle dOk dOk).1 (by decide) rfl,
   (c10_merkle_default jsonParseTest isAddressTest sixOkArgs dOk dOk).2.2 rfl⟩

/-- Counterexample for C10 as stated: with a truthy non-array string as
second argument, `rejoin_validator_set.js` returns successfully with a
merkleProof field that is not an array. -/
theorem c10_nonarray_merkle_counterexample :
    extractDataFromArgs jpNone
      (.vArr [.vStr (['0', 'x', 'a', 'b']), .vStr (['z', 'z']),
        .vObj [((['k']), .vNum 1)], .vNum 1, .vNum 1, .vNum 1]) =
      .ok ⟨.vStr (['0', 'x', 'a', 'b']), .vStr (['z', 'z']),
        .vObj [((['k']), .vNum 1)], .vNum 1, .vNum 1, .vNum 1⟩ ∧
    isArrayV (.vStr (['z', 'z'])) = false :=
  ⟨rfl, rfl⟩

/-- C1 (amended). For `part_000`'s `parseArgsData`, a tuple rendering of N
top-level comma-separated elements — each non-empty, trimmed, well-nested
with respect to quoted strings, parentheses, curly braces and square
brackets, and containing no top-level comma — parses to an array of exactly
N elements.  The same holds for `rejoin_validator_set.js` only for elements
well-nested with respect to strings, parentheses and curly braces: that
splitter does not track square brackets (see the counterexample). -/
theorem c1_tuple_split_element_count (jp : Str → Option JSValue)
    (elems elems1 : List Str)
    (hne : elems ≠ []) (hall : ∀ e ∈ elems, ElemOk e)
    (hne1 : elems1 ≠ []) (hall1 : ∀ e ∈ elems1, ElemOk1 e) :
    (parseArgsData2 jp (tupleRender elems) = .ok (.vArr (elems.map (coercePart2 jp)))
      ∧ (elems.map (coercePart2 jp)).length = elems.length)
    ∧ (parseArgsData jp (tupleRender elems1) = .ok (.vArr (elems1.map (coercePart1 jp)))
      ∧ (elems1.map (coercePart1 jp)).length = elems1.length) :=
  ⟨⟨parse2_tupleRender jp elems hne hall, List.length_map _ _⟩,
   ⟨parse1_tupleRender jp elems1 hne1 hall1, List.length_map _ _⟩⟩

/-- Witness for C1: the two-element tuple `(1,[2,3])` parses to a
two-element array in both versions (the second element is bracket-free as
far as top-level commas are concerned only in `part_000`; for the
`rejoin_validator_set.js` instance a comma-free bracketed element is used). -/
theorem c1_tuple_split_element_count_witness :
    parseArgsData2 jpNone (tupleRender [['1'], ['[', '2', ',', '3', ']']]) =
      .ok (.vArr [.vStr ['1'], .vStr ['[', '2', ',', '3', ']']]) ∧
    parseArgsData jpNone (tupleRender [['1'], ['[', '2', ']']]) =
      .ok (.vArr [.vStr ['1'], .vStr ['[', '2', ']']]) :=
  ⟨((c1_tuple_split_element_count jpNone [['1'], ['[', '2', ',', '3', ']']] [['1']]
      (by decide) (by decide) (by decide) (by decide)).1.1).trans (by rfl),
   ((c1_tuple_split_element_count jpNone [['1']] [['1'], ['[', '2', ']']]
      (by decide) (by decide) (by decide) (by decide)).2.1).trans (by rfl)⟩

/-- Counterexample for C1 as stated: the tuple `([1,2],3)` has two
top-level elements, and both are well-nested in the sense of the claim
(square brackets protect the inner comma: `ElemOk` holds for both), yet
`rejoin_validator_set.js`'s `parseArgsData` splits inside the brackets and
returns an array of three elements, not two. -/
theorem c1_square_brackets_counterexample :
    parseArgsData jpNone (tupleRender [['[', '1', ',', '2', ']'], ['3']]) =
      .ok (.vArr [.vStr ['[', '1'], .vStr ['2', ']'], .vStr ['3']]) ∧
    ElemOk (['[', '1', ',', '2', ']']) ∧ ElemOk ['3'] ∧
    vLen (.vArr [.vStr ['[', '1'], .vStr ['2', ']'], .vStr ['3']]) = 3 ∧
    ([['[', '1', ',', '2', ']'], ['3']] : List Str).length = 2 := by
  refine ⟨by rfl, by decide, by decide, by rfl, by rfl⟩
